import Mathlib

/-! neongthreads: the authentication and authorization gate, and the statements of the store

A shallow embedding of `src/utils.go` (users, tokens, cookies) and `src/api.go`
(router, handlers, `protectMiddleware`).

Conventions of the embedding.

* A Go `error` is its message; `Except String α` is a Go result pair of which exactly
  one side is set, and `Option String` a nilable `error`.
* A handler run is the list of effects it performed, in order, together with how it
  ended (`Outcome.returned`, or `Outcome.panicked` for a Go run-time panic).
* Everything outside the repository that a handler consults (process environment,
  the HMAC primitive, bcrypt, the JSON codec for request bodies, the store behind the
  `Storage` interface) is a field of `Env`.
* `github.com/golang-jwt/jwt` is modelled at the level of decoded segments: a token
  text is either not three decodable segments, or it is a header object, a claims
  object and a signature.
-/

namespace NeongThreads

/-! ## Numbers: Go `int`, `float64` and JSON number literals -/

/-- A finite IEEE-754 double, denoting `m * 2 ^ e` (not necessarily normalised). -/
structure Float64 where
  m : Int
  e : Int
deriving DecidableEq, Repr

/-- The number of binary digits of `a`, found by at most `fuel` halvings. -/
def bitLength : Nat → Nat → Nat
  | 0, _ => 0
  | fuel + 1, a => if a = 0 then 0 else bitLength fuel (a / 2) + 1

/-- The double nearest to the integer `n`, ties to even: what `encoding/json` stores in an
`interface{}` for the integer literal `n`. Integers of magnitude up to `2 ^ 53` are exact;
a larger one keeps its 53 leading binary digits, rounded. -/
def float64OfInt (n : Int) : Float64 :=
  let a := n.natAbs
  if a ≤ 2 ^ 53 then ⟨n, 0⟩
  else
    let k := bitLength a a - 53
    let q := a / 2 ^ k
    let r := a % 2 ^ k
    let half := 2 ^ (k - 1)
    let q1 := if half < r ∨ (r = half ∧ q % 2 = 1) then q + 1 else q
    ⟨if n < 0 then -(q1 : Int) else (q1 : Int), (k : Int)⟩

/-- The integer part of a double, truncated toward zero. -/
def Float64.trunc (f : Float64) : Int :=
  if 0 ≤ f.e then f.m * 2 ^ f.e.toNat else Int.tdiv f.m (2 ^ (-f.e).toNat)

/-- Go's conversion `int(f)` on a 64-bit platform. When the truncated value does not fit
an `int` the result is implementation-dependent: `oor` stands for it. -/
def goInt (oor : Int) (f : Float64) : Int :=
  let t := f.trunc
  if -(2 ^ 63) ≤ t ∧ t < 2 ^ 63 then t else oor

/-- A JSON value as written in a token segment. `int n` is an integer literal, `real f` any
other number literal, given by the double it decodes to. -/
inductive JsonLit
  | null
  | bool (b : Bool)
  | int (n : Int)
  | real (f : Float64)
  | string (s : String)
  | other
deriving DecidableEq, Repr

/-- A dynamic Go value held in a `jwt.MapClaims` (an `interface{}`). -/
inductive GoValue
  | nil
  | bool (b : Bool)
  | int (n : Int)
  | float64 (f : Float64)
  | string (s : String)
  | other
deriving DecidableEq, Repr

/-- `jwt.MapClaims`: a map from claim name to value, looked up by first match. -/
abbrev MapClaims := List (String × GoValue)

/-- `json.Marshal` of one claim value. -/
def GoValue.marshal : GoValue → JsonLit
  | .nil => .null
  | .bool b => .bool b
  | .int n => .int n
  | .float64 f => .real f
  | .string s => .string s
  | .other => .other

/-- `json.Unmarshal` of one value into an `interface{}`: every number becomes a `float64`;
a number of magnitude `2 ^ 1024` or more is an error. -/
def JsonLit.unmarshal : JsonLit → Except String GoValue
  | .null => .ok .nil
  | .bool b => .ok (.bool b)
  | .int n =>
    let f := float64OfInt n
    if bitLength f.m.natAbs f.m.natAbs + f.e.toNat ≤ 1024 then .ok (.float64 f)
    else .error "json: cannot unmarshal number into Go value of type float64"
  | .real f => .ok (.float64 f)
  | .string s => .ok (.string s)
  | .other => .ok .other

/-- `json.Unmarshal` of an object, member by member. -/
def unmarshalObject : List (String × JsonLit) → Except String MapClaims
  | [] => .ok []
  | (k, v) :: rest =>
    match v.unmarshal with
    | .error e => .error e
    | .ok gv =>
      match unmarshalObject rest with
      | .error e => .error e
      | .ok m => .ok ((k, gv) :: m)

/-! ## Data model (`src/utils.go`) -/

/-- Go `type User struct`. -/
structure User where
  Id : Int
  Username : String
  PasswordHashed : String
  Level : Int
deriving DecidableEq, Repr

/-- Go `type Product struct`; field `Typ` is the source field `Type`. -/
structure Product where
  Id : Int
  Typ : String
  Title : String
  Description : String
  Price : Float64
  Gender : String
  Color : String
  Small : Int
  Medium : Int
  Large : Int
  ImageUrl : String
  ImageAlt : String
deriving DecidableEq, Repr

/-- Go `type LoginRequest struct`. -/
structure LoginRequest where
  Username : String
  Password : String
deriving DecidableEq, Repr

/-! ## Tokens (`github.com/golang-jwt/jwt`, decoded-segment model) -/

/-- The two signed segments of a compact token: header object and claims object. -/
structure SigningInput where
  header : List (String × JsonLit)
  claims : List (String × JsonLit)
deriving DecidableEq, Repr

/-- The text of a token as `jwt.Parse` reads it. `malformed` is any text that is not three
segments with a decodable JSON header and claims; `compact` gives the decoded header and
claims and the signature segment (`none` when it is not valid base64url). -/
inductive TokenString
  | malformed (raw : String)
  | compact (input : SigningInput) (sig : Option String)
deriving DecidableEq, Repr

/-- The dynamic type of `token.Method`. -/
inductive SigningMethod
  | HMAC (alg : String)
  | RSA (alg : String)
  | RSAPSS (alg : String)
  | ECDSA (alg : String)
  | Ed25519
  | none
deriving DecidableEq, Repr

/-- The library's registry `jwt.GetSigningMethod`. -/
def GetSigningMethod (alg : String) : Option SigningMethod :=
  if alg = "HS256" ∨ alg = "HS384" ∨ alg = "HS512" then some (.HMAC alg)
  else if alg = "RS256" ∨ alg = "RS384" ∨ alg = "RS512" then some (.RSA alg)
  else if alg = "PS256" ∨ alg = "PS384" ∨ alg = "PS512" then some (.RSAPSS alg)
  else if alg = "ES256" ∨ alg = "ES384" ∨ alg = "ES512" then some (.ECDSA alg)
  else if alg = "EdDSA" then some .Ed25519
  else if alg = "none" then some .none
  else Option.none

/-- The dynamic type of `token.Claims`; `jwt.Parse` always installs a `MapClaims`. -/
inductive Claims
  | MapClaims (m : MapClaims)
  | Other
deriving DecidableEq, Repr

/-- Go `jwt.Token`, the fields the program reads. `Method` is `none` for a nil method. -/
structure Token where
  Method : Option SigningMethod
  Header : MapClaims
  Claims : Claims
  Valid : Bool
deriving DecidableEq, Repr

/-- Map lookup `m[key]`; `none` when the key is absent. -/
def MapClaims.get : MapClaims → String → Option GoValue
  | [], _ => none
  | (k, v) :: rest, key => if k = key then some v else MapClaims.get rest key

/-- The type assertion `token.Header["alg"].(string)`. -/
def headerAlg (header : MapClaims) : Option String :=
  match header.get "alg" with
  | some (.string s) => some s
  | _ => none

/-- `json.Marshal` of a map of dynamic values. -/
def marshalObject (m : MapClaims) : List (String × JsonLit) :=
  m.map (fun kv => (kv.1, kv.2.marshal))

/-! ## The world outside the repository -/

/-- The value handed to `WriteJSON`. -/
inductive JsonOut
  | string (s : String)
  | int (n : Int)
  | user (u : User)
  | users (us : List User)
  | product (p : Product)
  | products (ps : List Product)
deriving DecidableEq, Repr

/-- Go `type Storage interface` (`src/storage.go`), as the answers an implementation gives.
A result pair has exactly one side set, as every method of `PostgresStore` returns it. -/
structure Storage where
  CreateUser : User → Except String User
  GetAllUsers : Except String (List User)
  GetUserById : Int → Except String User
  GetUserByUsername : String → Except String User
  UpdateUser : User → Option String
  DeleteUserById : Int → Option String
  CreateProduct : Product → Except String Product
  GetAllProducts : Except String (List Product)
  GetProductsByType : String → Except String (List Product)
  GetProductById : Int → Except String Product
  GetProductByTitle : String → Except String Product
  UpdateProduct : Product → Option String
  DeleteProductById : Int → Option String

/-- What a request handler consults outside the repository's own code. -/
structure Env where
  /-- Process environment read by `os.Getenv`. -/
  environ : String → Option String
  /-- HMAC of the signing input under a key, for the hash of the named algorithm, as the
  signature segment. -/
  hmac : String → String → SigningInput → String
  /-- Result of `m.Hash.Available()` for the HMAC methods. -/
  hashAvailable : Bool
  /-- Result of the library's `exp`/`iat`/`nbf` checks against the clock, consulted only when
  one of those claims is present. -/
  timeClaimsValid : MapClaims → Bool
  /-- Result of `int(f)` when `f` does not fit an `int`. -/
  intOutOfRange : Int
  /-- Result of `bcrypt.CompareHashAndPassword(hash, password)`: `none` is a nil error. -/
  bcryptCompare : String → String → Option String
  /-- Result of `json.NewDecoder(body).Decode` into a `LoginRequest`. -/
  decodeLoginRequest : String → Except String LoginRequest
  /-- Result of `json.NewDecoder(body).Decode` into a `Product`. -/
  decodeProduct : String → Except String Product
  /-- Result of `json.NewDecoder(body).Decode` into a `User`. -/
  decodeUser : String → Except String User
  /-- Error of `json.NewEncoder(w).Encode(v)`, if any. -/
  encodeError : JsonOut → Option String
  /-- The store behind the server. -/
  store : Storage

/-- Go `os.Getenv`: the empty string when the variable is not set. -/
def osGetenv (env : Env) (key : String) : String :=
  (env.environ key).getD ""

/-! ## Token library operations -/

/-- Go `jwt.NewWithClaims(method, claims)`. -/
def NewWithClaims (alg : String) (method : SigningMethod) (claims : MapClaims) : Token :=
  { Method := some method
    Header := [("alg", .string alg), ("typ", .string "JWT")]
    Claims := .MapClaims claims
    Valid := false }

/-- Go `method.Sign(signingString, key)` with a `[]byte` key. Only the HMAC methods take
such a key. -/
def SigningMethod.Sign (env : Env) (method : SigningMethod) (input : SigningInput)
    (key : String) : Except String String :=
  match method with
  | .HMAC alg =>
    if env.hashAvailable then .ok (env.hmac alg key input)
    else .error "the requested hash function is unavailable"
  | .none => .error "'none' signature type is not allowed"
  | _ => .error "key is of invalid type"

/-- Go `method.Verify(signingString, signature, key)` with a `[]byte` key; `none` is a nil
error. -/
def SigningMethod.Verify (env : Env) (method : SigningMethod) (input : SigningInput)
    (sig : Option String) (key : String) : Option String :=
  match method with
  | .HMAC alg =>
    match sig with
    | Option.none => some "illegal base64 data"
    | some s =>
      if env.hashAvailable then
        if s = env.hmac alg key input then Option.none else some "signature is invalid"
      else some "the requested hash function is unavailable"
  | .none => some "'none' signature type is not allowed"
  | _ => some "key is of invalid type"

/-- Go `token.SignedString(key)`. -/
def Token.SignedString (env : Env) (t : Token) (key : String) : Except String TokenString :=
  match t.Claims, t.Method with
  | .MapClaims m, some method =>
    let input : SigningInput := ⟨marshalObject t.Header, marshalObject m⟩
    match method.Sign env input key with
    | .ok sig => .ok (.compact input (some sig))
    | .error e => .error e
  | _, _ => .error "json: unsupported type"

/-- Go `MapClaims.Valid()`: nil when none of `exp`, `iat`, `nbf` is present, otherwise the
outcome of the time checks. -/
def MapClaims.Valid (env : Env) (m : MapClaims) : Option String :=
  if (m.get "exp").isNone ∧ (m.get "iat").isNone ∧ (m.get "nbf").isNone then none
  else if env.timeClaimsValid m then none
  else some "token has invalid time claims"

/-- Go `Parser.ParseUnverified` with `MapClaims`. -/
def ParseUnverified (ts : TokenString) : Option Token × Option String :=
  match ts with
  | .malformed _ => (none, some "token is malformed")
  | .compact input _ =>
    match unmarshalObject input.header with
    | .error e => (some ⟨none, [], .MapClaims [], false⟩, some e)
    | .ok header =>
      match unmarshalObject input.claims with
      | .error e => (some ⟨none, header, .MapClaims [], false⟩, some e)
      | .ok claims =>
        match headerAlg header with
        | some alg =>
          match GetSigningMethod alg with
          | some method => (some ⟨some method, header, .MapClaims claims, false⟩, none)
          | none =>
            (some ⟨none, header, .MapClaims claims, false⟩,
              some "signing method (alg) is unavailable.")
        | none =>
          (some ⟨none, header, .MapClaims claims, false⟩,
            some "signing method (alg) is unspecified.")

/-- Go `jwt.Parse(tokenString, keyFunc)`: parse, look the key up, validate the claims,
verify the signature. The token is marked `Valid` exactly when no error is returned. -/
def Parse (env : Env) (ts : TokenString) (keyFunc : Token → Except String String) :
    Option Token × Option String :=
  match ParseUnverified ts with
  | (token, some err) => (token, some err)
  | (none, none) => (none, some "token is malformed")
  | (some token, none) =>
    match keyFunc token with
    | .error err => (some token, some err)
    | .ok key =>
      match ts, token.Method, token.Claims with
      | .compact input sig, some method, .MapClaims m =>
        match method.Verify env input sig key, m.Valid env with
        | none, none => (some { token with Valid := true }, none)
        | some e, _ => (some token, some e)
        | none, some e => (some token, some e)
      | _, _, _ => (some token, some "token is unverifiable")

/-! ## `src/utils.go` -/

/-- Go `User.VerifyPassword`. -/
def User.VerifyPassword (env : Env) (u : User) (pass : String) : Bool :=
  (env.bcryptCompare u.PasswordHashed pass).isNone

/-- Go `CreateJWT`. -/
def CreateJWT (env : Env) (id : Int) : Except String TokenString :=
  let claims : MapClaims := [("userId", .int id)]
  let secret := osGetenv env "JWT_SECRET"
  let token := NewWithClaims "HS256" (.HMAC "HS256") claims
  token.SignedString env secret

/-- The key function `ValidateJWT` hands to `jwt.Parse`. -/
def keyFunc (secret : String) (token : Token) : Except String String :=
  match token.Method with
  | some (.HMAC _) => .ok secret
  | _ => .error ("unexpected signing method: " ++ (headerAlg token.Header).getD "<nil>")

/-- Go `ValidateJWT`. -/
def ValidateJWT (env : Env) (tokenString : TokenString) : Option Token × Option String :=
  let secret := osGetenv env "JWT_SECRET"
  Parse env tokenString (keyFunc secret)

/-- Go `http.SameSite`; `unset` is the zero value. -/
inductive SameSite
  | unset
  | DefaultMode
  | LaxMode
  | StrictMode
  | NoneMode
deriving DecidableEq, Repr

/-- Go `http.Cookie`, the fields `CreateCookie` leaves or sets. -/
structure Cookie where
  Name : String
  Value : TokenString
  Domain : String
  Path : String
  SameSite : SameSite
  Secure : Bool
  HttpOnly : Bool
deriving DecidableEq, Repr

/-- Go `CreateCookie`. -/
def CreateCookie (name : String) (value : TokenString) : Cookie :=
  { Name := name
    Value := value
    Domain := "localhost"
    Path := "/"
    SameSite := .StrictMode
    Secure := false
    HttpOnly := false }

/-! ## Requests, effects and runs -/

/-- Go `http.Request`, the parts the handlers read: method, `URL.Path`, the cookies sent,
the body, the route variables of `mux.Vars` and the context value under `ContextKeyUser`. -/
structure Request where
  Method : String
  Path : String
  Cookies : List (String × TokenString)
  Body : String
  Vars : List (String × String)
  ContextUser : Option User
deriving DecidableEq, Repr

/-- Go `r.Cookie(name)`: the first cookie of that name, else `http.ErrNoCookie`. -/
def Request.Cookie (r : Request) (name : String) : Except String TokenString :=
  match r.Cookies.find? (fun c => c.1 = name) with
  | some c => .ok c.2
  | none => .error "http: named cookie not present"

/-- Go `r.WithContext(context.WithValue(r.Context(), ContextKeyUser, user))`. -/
def Request.WithContext (r : Request) (user : User) : Request :=
  { r with ContextUser := some user }

/-- Go `mux.Vars(r)[name]`: the empty string when the variable is absent. -/
def Request.Var (r : Request) (name : String) : String :=
  match r.Vars.find? (fun kv => kv.1 = name) with
  | some kv => kv.2
  | none => ""

/-- A call on the `Storage` interface. -/
inductive StoreCall
  | CreateUser (u : User)
  | GetAllUsers
  | GetUserById (id : Int)
  | GetUserByUsername (username : String)
  | UpdateUser (u : User)
  | DeleteUserById (id : Int)
  | CreateProduct (p : Product)
  | GetAllProducts
  | GetProductsByType (t : String)
  | GetProductById (id : Int)
  | GetProductByTitle (title : String)
  | UpdateProduct (p : Product)
  | DeleteProductById (id : Int)
deriving DecidableEq, Repr

/-- One effect of a handler. -/
inductive Event
  | log (msg : String)
  | store (call : StoreCall)
  | httpError (body : String) (code : Nat)
  | setCookie (c : Cookie)
  | writeHeader (status : Nat)
  | setHeader (key : String) (value : String)
  | write (v : JsonOut)
deriving DecidableEq, Repr

/-- How a handler ended. -/
inductive Outcome
  | returned
  | panicked (msg : String)
deriving DecidableEq, Repr

/-- A handler run: its effects in order and how it ended. -/
structure Exec where
  events : List Event
  outcome : Outcome
deriving DecidableEq, Repr

/-- A run that performs `es` and returns. -/
def Exec.ret (es : List Event) : Exec := ⟨es, .returned⟩

/-- A run that performs `es` and then panics. -/
def Exec.panic (es : List Event) (msg : String) : Exec := ⟨es, .panicked msg⟩

/-- The run that performs `es` and continues as `x`. -/
def Exec.after (es : List Event) (x : Exec) : Exec := ⟨es ++ x.events, x.outcome⟩

/-- Whether an effect writes to the response (`http.Error`, `http.SetCookie`, header or
body writes). -/
def Event.isResponse : Event → Bool
  | .log _ => false
  | .store _ => false
  | _ => true

/-- Whether an effect is a call on the store. -/
def Event.isStore : Event → Bool
  | .store _ => true
  | _ => false

/-- Whether an effect is one of the three product mutations of the store. -/
def Event.isProductMutation : Event → Bool
  | .store (.CreateProduct _) => true
  | .store (.UpdateProduct _) => true
  | .store (.DeleteProductById _) => true
  | _ => false

/-- Whether an effect sets a cookie. -/
def Event.isSetCookie : Event → Bool
  | .setCookie _ => true
  | _ => false

/-- What a run wrote to the response, in order. -/
def Exec.response (x : Exec) : List Event := x.events.filter Event.isResponse

/-- The calls a run made on the store, in order. -/
def Exec.storeCalls (x : Exec) : List Event := x.events.filter Event.isStore

/-- The cookies a run set on the response, in order. -/
def Exec.cookies (x : Exec) : List Cookie :=
  x.events.filterMap (fun e => match e with | .setCookie c => some c | _ => none)

/-- The status code of the response: that of the first `WriteHeader` (explicit, through
`http.Error`, or implied by a first body write); `none` when nothing was written. -/
def Exec.status (x : Exec) : Option Nat :=
  x.events.findSome? (fun e =>
    match e with
    | .writeHeader status => some status
    | .httpError _ code => some code
    | .write _ => some 200
    | _ => none)

/-- The message of Go's run-time panic on a nil dereference. -/
def nilDereference : String :=
  "runtime error: invalid memory address or nil pointer dereference"

/-- Go `WriteJSON`. -/
def WriteJSON (env : Env) (v : JsonOut) (status : Nat) : List Event :=
  [.writeHeader status, .setHeader "Content-Type" "application/json"] ++
    match env.encodeError v with
    | none => [.write v]
    | some err => [.log err, .httpError "error: internal server error" 500]

/-! ## Go standard library helpers -/

/-- Splitting a character list at every `sep`. -/
def splitChars (sep : Char) : List Char → List (List Char)
  | [] => [[]]
  | c :: cs =>
    if c = sep then [] :: splitChars sep cs
    else
      match splitChars sep cs with
      | [] => [[c]]
      | seg :: segs => (c :: seg) :: segs

/-- Go `strings.Split(s, sep)` for a one-character separator. -/
def stringsSplit (s : String) (sep : Char) : List String :=
  (splitChars sep s.data).map String.mk

/-- Go `strings.Replace(s, "-", " ", -1)`. -/
def replaceDashes (s : String) : String :=
  String.mk (s.data.map (fun c => if c = '-' then ' ' else c))

/-- The value of a string of decimal digits, `none` when another character occurs. -/
def parseDigits : List Char → Nat → Option Nat
  | [], acc => some acc
  | c :: cs, acc =>
    if c.isDigit then parseDigits cs (acc * 10 + (c.toNat - 48)) else none

/-- Go `strconv.Atoi` on a 64-bit platform. -/
def Atoi (s : String) : Except String Int :=
  let syntaxError : Except String Int := .error "strconv.Atoi: invalid syntax"
  let rangeError : Except String Int := .error "strconv.Atoi: value out of range"
  match s.data with
  | [] => syntaxError
  | '-' :: ds =>
    match ds, parseDigits ds 0 with
    | _ :: _, some n => if n ≤ 2 ^ 63 then .ok (-(n : Int)) else rangeError
    | _, _ => syntaxError
  | '+' :: ds =>
    match ds, parseDigits ds 0 with
    | _ :: _, some n => if n < 2 ^ 63 then .ok (n : Int) else rangeError
    | _, _ => syntaxError
  | ds =>
    match parseDigits ds 0 with
    | some n => if n < 2 ^ 63 then .ok (n : Int) else rangeError
    | none => syntaxError

/-! ## Handlers (`src/api.go`) -/

/-- The events of a failed step: the log line and the 500 response. -/
def internalServerError (err : String) : List Event :=
  [.log err, .httpError "internal server error" 500]

/-- Go `ApiServer.handleHomePage`. -/
def handleHomePage (_env : Env) (_r : Request) : Exec := .ret []

/-- The default branch of a method switch. -/
def methodNotAllowed (r : Request) : Exec :=
  .ret [.httpError ("method " ++ r.Method ++ " not allowed") 405]

/-- Go `ApiServer.handleLogin`. -/
def handleLogin (env : Env) (r : Request) : Exec :=
  match env.decodeLoginRequest r.Body with
  | .error err => .ret (internalServerError err)
  | .ok loginReq =>
    match env.store.GetUserByUsername loginReq.Username with
    | .error err =>
      .ret [.store (.GetUserByUsername loginReq.Username), .log err,
        .httpError "user not found" 404]
    | .ok user =>
      if !user.VerifyPassword env loginReq.Password then
        .ret [.store (.GetUserByUsername loginReq.Username), .httpError "wrong password" 400]
      else
        match CreateJWT env user.Id with
        | .error err =>
          .ret (.store (.GetUserByUsername loginReq.Username) :: internalServerError err)
        | .ok token =>
          let cookie := CreateCookie "token" token
          .ret ([.store (.GetUserByUsername loginReq.Username), .setCookie cookie] ++
            WriteJSON env (.string "login successful") 200)

/-- Go `ApiServer.handleGetAllProducts`. -/
def handleGetAllProducts (env : Env) (_r : Request) : Exec :=
  match env.store.GetAllProducts with
  | .error err => .ret (.store .GetAllProducts :: internalServerError err)
  | .ok products => .ret (.store .GetAllProducts :: WriteJSON env (.products products) 200)

/-- Go `ApiServer.handleProductsTracksuits`. -/
def handleProductsTracksuits (env : Env) (_r : Request) : Exec :=
  match env.store.GetProductsByType "tracksuit" with
  | .error err => .ret (.store (.GetProductsByType "tracksuit") :: internalServerError err)
  | .ok products =>
    .ret (.store (.GetProductsByType "tracksuit") :: WriteJSON env (.products products) 200)

/-- Go `ApiServer.handleProductsWindbreakers`. -/
def handleProductsWindbreakers (env : Env) (_r : Request) : Exec :=
  match env.store.GetProductsByType "windbreaker" with
  | .error err => .ret (.store (.GetProductsByType "windbreaker") :: internalServerError err)
  | .ok products =>
    .ret (.store (.GetProductsByType "windbreaker") :: WriteJSON env (.products products) 200)

/-- Go `ApiServer.handleCreateProduct`. -/
def handleCreateProduct (env : Env) (r : Request) : Exec :=
  match env.decodeProduct r.Body with
  | .error err => .ret (internalServerError err)
  | .ok product =>
    match env.store.CreateProduct product with
    | .error err => .ret (.store (.CreateProduct product) :: internalServerError err)
    | .ok created =>
      .ret (.store (.CreateProduct product) :: WriteJSON env (.int created.Id) 201)

/-- Go `ApiServer.handleUpdateProduct`. -/
def handleUpdateProduct (env : Env) (r : Request) : Exec :=
  match env.decodeProduct r.Body with
  | .error err => .ret (internalServerError err)
  | .ok product =>
    match env.store.UpdateProduct product with
    | some err => .ret (.store (.UpdateProduct product) :: internalServerError err)
    | none =>
      .ret (.store (.UpdateProduct product) :: WriteJSON env (.string "product updated") 201)

/-- Go `ApiServer.handleGetProduct`. -/
def handleGetProduct (env : Env) (r : Request) : Exec :=
  let title := replaceDashes (r.Var "productTitle")
  match env.store.GetProductByTitle title with
  | .error err => .ret (.store (.GetProductByTitle title) :: internalServerError err)
  | .ok product =>
    .ret (.store (.GetProductByTitle title) :: WriteJSON env (.product product) 200)

/-- Go `ApiServer.handleDeleteProduct`. -/
def handleDeleteProduct (env : Env) (r : Request) : Exec :=
  let title := replaceDashes (r.Var "productTitle")
  match env.store.GetProductByTitle title with
  | .error err => .ret (.store (.GetProductByTitle title) :: internalServerError err)
  | .ok product =>
    match env.store.DeleteProductById product.Id with
    | some err =>
      .ret ([.store (.GetProductByTitle title), .store (.DeleteProductById product.Id)] ++
        internalServerError err)
    | none =>
      .ret ([.store (.GetProductByTitle title), .store (.DeleteProductById product.Id)] ++
        WriteJSON env (.string "product deleted") 200)

/-- Go `ApiServer.handleGetAllUsers`. -/
def handleGetAllUsers (env : Env) (_r : Request) : Exec :=
  match env.store.GetAllUsers with
  | .error err => .ret (.store .GetAllUsers :: internalServerError err)
  | .ok users => .ret (.store .GetAllUsers :: WriteJSON env (.users users) 200)

/-- Go `ApiServer.handleCreateUser`. -/
def handleCreateUser (env : Env) (r : Request) : Exec :=
  match env.decodeUser r.Body with
  | .error err => .ret (internalServerError err)
  | .ok user =>
    match env.store.CreateUser user with
    | .error err => .ret (.store (.CreateUser user) :: internalServerError err)
    | .ok created => .ret (.store (.CreateUser user) :: WriteJSON env (.int created.Id) 200)

/-- Go `ApiServer.handleUpdateUser`. -/
def handleUpdateUser (env : Env) (r : Request) : Exec :=
  match env.decodeUser r.Body with
  | .error err => .ret (internalServerError err)
  | .ok user =>
    match env.store.UpdateUser user with
    | some err => .ret (.store (.UpdateUser user) :: internalServerError err)
    | none => .ret (.store (.UpdateUser user) :: WriteJSON env (.string "user updated") 200)

/-- Go `ApiServer.handleGetUser`. -/
def handleGetUser (env : Env) (r : Request) : Exec :=
  match Atoi (r.Var "userId") with
  | .error err => .ret (internalServerError err)
  | .ok id =>
    match env.store.GetUserById id with
    | .error err => .ret (.store (.GetUserById id) :: internalServerError err)
    | .ok user => .ret (.store (.GetUserById id) :: WriteJSON env (.user user) 200)

/-- Go `ApiServer.handleDeleteUser`. -/
def handleDeleteUser (env : Env) (r : Request) : Exec :=
  match Atoi (r.Var "userId") with
  | .error err => .ret (internalServerError err)
  | .ok id =>
    match env.store.DeleteUserById id with
    | some err => .ret (.store (.DeleteUserById id) :: internalServerError err)
    | none => .ret (.store (.DeleteUserById id) :: WriteJSON env (.string "user deleted") 200)

/-- Go `ApiServer.handleProducts`. -/
def handleProducts (env : Env) (r : Request) : Exec :=
  if r.Method = "GET" then handleGetAllProducts env r
  else if r.Method = "POST" then handleCreateProduct env r
  else if r.Method = "PUT" then handleUpdateProduct env r
  else methodNotAllowed r

/-- Go `ApiServer.handleProduct`. -/
def handleProduct (env : Env) (r : Request) : Exec :=
  if r.Method = "GET" then handleGetProduct env r
  else if r.Method = "DELETE" then handleDeleteProduct env r
  else methodNotAllowed r

/-- Go `ApiServer.handleUsers`. -/
def handleUsers (env : Env) (r : Request) : Exec :=
  if r.Method = "GET" then handleGetAllUsers env r
  else if r.Method = "POST" then handleCreateUser env r
  else if r.Method = "PUT" then handleUpdateUser env r
  else methodNotAllowed r

/-- Go `ApiServer.handleUser`. -/
def handleUser (env : Env) (r : Request) : Exec :=
  if r.Method = "GET" then handleGetUser env r
  else if r.Method = "DELETE" then handleDeleteUser env r
  else methodNotAllowed r

/-- The log line of a level denial in `protectMiddleware`. -/
def levelDenied (user : User) (endpoint : String) : String :=
  "user " ++ user.Username ++ " not authorized to access " ++ endpoint ++ ": userLevel(" ++
    toString user.Level ++ ") > 1"

/-- Go `ApiServer.protectMiddleware(next)`, the handler it returns. A call of `err.Error()`
on the nil `err` left by `ValidateJWT` is a nil dereference, and `strings.Split(...)[1]` on a
path without a slash is an index out of range. -/
def protectMiddleware (env : Env) (next : Request → Exec) (r : Request) : Exec :=
  match r.Cookie "token" with
  | .error err => .ret [.log err, .httpError "error: not authorized" 401]
  | .ok cookieValue =>
    match ValidateJWT env cookieValue with
    | (_, some err) => .ret [.log err, .httpError "error: not authorized" 401]
    | (none, none) => .panic [] nilDereference
    | (some token, none) =>
      if !token.Valid then .panic [] nilDereference
      else
        match token.Claims with
        | .Other => .panic [] nilDereference
        | .MapClaims claims =>
          match claims.get "userId" with
          | some (.float64 userId) =>
            let id := goInt env.intOutOfRange userId
            match env.store.GetUserById id with
            | .error err =>
              .ret [.store (.GetUserById id), .log err, .httpError "error: user not found" 404]
            | .ok user =>
              match (stringsSplit r.Path '/').get? 1 with
              | none => .panic [.store (.GetUserById id)] "runtime error: index out of range"
              | some endpoint =>
                let denied : Exec :=
                  .ret [.store (.GetUserById id), .log (levelDenied user endpoint),
                    .httpError "not authorized" 401]
                let passed : Exec :=
                  .after [.store (.GetUserById id)] (next (r.WithContext user))
                if endpoint = "products" then
                  if user.Level > 1 then denied else passed
                else if endpoint = "users" then
                  if user.Level > 0 then denied else passed
                else passed
          | _ => .panic [] nilDereference

/-- The gate denies `r` with the response `body`/`code`: whatever the wrapped handler is, the
run returns having written exactly that `http.Error` response. -/
def Denies (env : Env) (r : Request) (body : String) (code : Nat) : Prop :=
  ∀ next : Request → Exec,
    (protectMiddleware env next r).outcome = .returned ∧
      (protectMiddleware env next r).response = [.httpError body code]

/-- The gate turns `r` away: the run returns, and it is the same run whatever the wrapped
handler is, so the wrapped handler had no part in it. -/
def Denied (env : Env) (r : Request) : Prop :=
  ∃ x : Exec, x.outcome = .returned ∧ ∀ next : Request → Exec, protectMiddleware env next r = x

/-! ## The router built by `Run` -/

/-- The variable a pattern segment `{name}` binds, `none` for a literal segment. -/
def segmentVar (seg : String) : Option String :=
  match seg.data with
  | '{' :: rest =>
    match rest.getLast? with
    | some '}' => some (String.mk rest.dropLast)
    | _ => none
  | _ => none

/-- Matching the segments of a route pattern against those of a path: a literal segment
matches itself, a variable segment any non-empty segment. -/
def matchSegments : List String → List String → Option (List (String × String))
  | [], [] => some []
  | p :: ps, s :: ss =>
    match segmentVar p with
    | some name =>
      if s = "" then none
      else
        match matchSegments ps ss with
        | some vars => some ((name, s) :: vars)
        | none => none
    | none => if p = s then matchSegments ps ss else none
  | _, _ => none

/-- Matching a `gorilla/mux` path template against a cleaned request path; on a match, the
route variables. -/
def muxMatch (pattern : String) (path : String) : Option (List (String × String)) :=
  matchSegments (stringsSplit pattern '/') (stringsSplit path '/')

/-- The routes `Run` registers, in order. -/
def routes (env : Env) : List (String × (Request → Exec)) :=
  [ ("/", handleHomePage env),
    ("/api/products", handleProducts env),
    ("/api/products/tracksuits", handleProductsTracksuits env),
    ("/api/products/windbreakers", handleProductsWindbreakers env),
    ("/api/products/{productTitle}", handleProduct env),
    ("/api/users", protectMiddleware env (handleUsers env)),
    ("/api/users/{userId}", protectMiddleware env (handleUser env)),
    ("/api/login", handleLogin env) ]

/-- Dispatch of a request over a route list: the first route whose template matches serves
it, with the route variables set; no match is the router's 404. -/
def dispatch : List (String × (Request → Exec)) → Request → Exec
  | [], _ => .ret [.httpError "404 page not found" 404]
  | (pattern, handler) :: rest, r =>
    match muxMatch pattern r.Path with
    | some vars => handler { r with Vars := vars }
    | none => dispatch rest r

/-- Go `ApiServer.Run`: how the router it builds serves one request. -/
def Run (env : Env) (r : Request) : Exec :=
  dispatch (routes env) r

/-! ## A concrete world, for evaluating the program on inputs -/

/-- A user of level 1 with id 7. -/
def alice : User := ⟨7, "alice", "hash-of-secret", 1⟩

/-- A user of level 0 with id 1. -/
def root : User := ⟨1, "root", "hash-of-toor", 0⟩

/-- A user of level 2 with id 9. -/
def carol : User := ⟨9, "carol", "hash-of-pw", 2⟩

/-- A product. -/
def jacket : Product :=
  ⟨3, "windbreaker", "neon jacket", "a jacket", ⟨25, 0⟩, "unisex", "green", 1, 2, 3,
    "/img/jacket.png", "jacket"⟩

/-- A store holding `root`, `alice` and `carol`, and the product `jacket`. -/
def sampleStore : Storage where
  CreateUser := fun u => .ok { u with Id := 10 }
  GetAllUsers := .ok [root, alice, carol]
  GetUserById := fun id =>
    if id = 1 then .ok root else if id = 7 then .ok alice else if id = 9 then .ok carol
    else .error "sql: no rows in result set"
  GetUserByUsername := fun name =>
    if name = "root" then .ok root else if name = "alice" then .ok alice
    else if name = "carol" then .ok carol else .error "sql: no rows in result set"
  UpdateUser := fun _ => none
  DeleteUserById := fun _ => none
  CreateProduct := fun p => .ok { p with Id := 4 }
  GetAllProducts := .ok [jacket]
  GetProductsByType := fun t => if t = "windbreaker" then .ok [jacket] else .ok []
  GetProductById := fun id => if id = 3 then .ok jacket else .error "sql: no rows in result set"
  GetProductByTitle := fun t =>
    if t = "neon jacket" then .ok jacket else .error "sql: no rows in result set"
  UpdateProduct := fun _ => none
  DeleteProductById := fun _ => none

/-- A stand-in for the HMAC primitive: it records algorithm, key and the signed claims. -/
def sampleHmac (alg : String) (key : String) (input : SigningInput) : String :=
  alg ++ "/" ++ key ++ "/" ++ toString input.header.length ++ "/" ++
    toString input.claims.length

/-- A world in which `JWT_SECRET` has the value `secret` (or is unset), bodies decode by a
fixed table, and the store is `sampleStore`. -/
def sampleEnv (secret : Option String) : Env where
  environ := fun key => if key = "JWT_SECRET" then secret else none
  hmac := sampleHmac
  hashAvailable := true
  timeClaimsValid := fun _ => true
  intOutOfRange := -(2 ^ 63)
  bcryptCompare := fun hash pass =>
    if hash = "hash-of-" ++ pass then none
    else some "crypto/bcrypt: hashedPassword is not the hash of the given password"
  decodeLoginRequest := fun body =>
    if body = "alice-login" then .ok ⟨"alice", "secret"⟩
    else if body = "alice-wrong" then .ok ⟨"alice", "guess"⟩
    else if body = "nobody-login" then .ok ⟨"nobody", "x"⟩
    else .error "unexpected EOF"
  decodeProduct := fun body => if body = "jacket" then .ok jacket else .error "unexpected EOF"
  decodeUser := fun body => if body = "alice" then .ok alice else .error "unexpected EOF"
  encodeError := fun _ => none
  store := sampleStore

/-- The header `jwt.NewWithClaims` writes for HS256. -/
def hs256Header : List (String × JsonLit) := [("alg", .string "HS256"), ("typ", .string "JWT")]

/-- A token for the claims object `claims`, signed by `sampleHmac` with `key` under HS256. -/
def signedWith (key : String) (claims : List (String × JsonLit)) : TokenString :=
  .compact ⟨hs256Header, claims⟩ (some (sampleHmac "HS256" key ⟨hs256Header, claims⟩))

/-- A request with the given method, path, cookies and body. -/
def request (method : String) (path : String) (cookies : List (String × TokenString))
    (body : String) : Request :=
  ⟨method, path, cookies, body, [], none⟩

/-- The cookie a client holds after `alice` (level 1) logged in under the secret `k`. -/
def aliceCookie : List (String × TokenString) :=
  [("token", signedWith "k" [("userId", .int 7)])]

/-- The cookie a client holds after `root` (level 0) logged in under the secret `k`. -/
def rootCookie : List (String × TokenString) :=
  [("token", signedWith "k" [("userId", .int 1)])]

/-- The cookie a client holds after `carol` (level 2) logged in under the secret `k`. -/
def carolCookie : List (String × TokenString) :=
  [("token", signedWith "k" [("userId", .int 9)])]

/-- The world of the examples: `JWT_SECRET` is `k`. -/
def world : Env := sampleEnv (some "k")

/-! ## The store (`src/storage.go`): the statements `PostgresStore` executes -/

/-- A value passed to the database for a placeholder. -/
inductive SqlValue
  | int (n : Int)
  | text (s : String)
  | float (f : Float64)
deriving DecidableEq, Repr

/-- The `database/sql` method an operation calls. -/
inductive DbCall
  | Exec
  | Query
  | QueryRow
deriving DecidableEq, Repr

/-- What an operation hands to the database: the method it calls, the query text and the
arguments that follow the query in the call, in order. -/
structure Statement where
  call : DbCall
  query : String
  args : List SqlValue
deriving DecidableEq, Repr

/-- One pass over a query text: `cur` is the number of the placeholder being read, if any,
`best` the highest placeholder number completed so far. -/
def scanPlaceholders : List Char → Option Nat → Nat → Nat
  | [], cur, best => max best (cur.getD 0)
  | c :: cs, cur, best =>
    if c = '$' then scanPlaceholders cs (some 0) (max best (cur.getD 0))
    else
      match cur with
      | some n =>
        if c.isDigit then scanPlaceholders cs (some (n * 10 + (c.toNat - 48))) best
        else scanPlaceholders cs none (max best n)
      | none => scanPlaceholders cs none best

/-- The highest `n` for which the placeholder `$n` occurs in the query; 0 when there is
none. -/
def highestPlaceholder (query : String) : Nat :=
  scanPlaceholders query.data none 0

/-- The rest of `text` after the prefix `pre`, when `text` starts with it. -/
def dropPrefix : List Char → List Char → Option (List Char)
  | [], text => some text
  | _ :: _, [] => none
  | p :: ps, c :: cs => if p = c then dropPrefix ps cs else none

/-- The number written by the leading decimal digits of a text. -/
def leadingNumber : List Char → Nat → Nat
  | [], acc => acc
  | c :: cs, acc => if c.isDigit then leadingNumber cs (acc * 10 + (c.toNat - 48)) else acc

/-- The placeholder of the first `where id=$n` in a text. -/
def findRowPlaceholder : List Char → Option Nat
  | [] => none
  | c :: cs =>
    match dropPrefix "where id=$".data (c :: cs) with
    | some rest => some (leadingNumber rest 0)
    | none => findRowPlaceholder cs

/-- The placeholder that identifies the row in the `where id=$n` of an update or delete. -/
def rowPlaceholder (query : String) : Option Nat :=
  findRowPlaceholder query.data

/-- The argument the database receives for the placeholder `$n`: the `n`-th argument of the
call, if there is one. -/
def Statement.bound (s : Statement) (n : Nat) : Option SqlValue :=
  if n = 0 then none else s.args.get? (n - 1)

/-- Every placeholder of the statement has an argument and every argument a placeholder:
the number of arguments is the highest placeholder number. -/
def Statement.bindsAll (s : Statement) : Prop :=
  s.args.length = highestPlaceholder s.query

/-- The query text of `PostgresStore.createUserTable`. -/
def createUserTableQuery : String :=
  "create table if not exists users (\n" ++
    "\t\tid serial primary key,\n" ++
    "\t\tusername text,\n" ++
    "\t\tpasswordHashed text,\n" ++
    "\t\tlevel integer\n" ++
    "\t)"

/-- The query text of `PostgresStore.createProductTable`. -/
def createProductTableQuery : String :=
  "create table if not exists products (\n" ++
    "\t\tid serial primary key,\n" ++
    "\t\ttype text\n" ++
    "\t\ttitle text,\n" ++
    "\t\tdescription text,\n" ++
    "\t\tprice money,\n" ++
    "\t\tgender text,\n" ++
    "\t\tcolor text,\n" ++
    "\t\tsmall integer,\n" ++
    "\t\tmedium integer,\n" ++
    "\t\tlarge integer,\n" ++
    "\t\timageUrl text,\n" ++
    "\t\timageAlt text,\n" ++
    "\t)"

/-- The query text of `PostgresStore.CreateUser`. -/
def createUserQuery : String :=
  "insert into users (username, passwordHashed, level)\n" ++
    "\tvalues ($1, $2, $3) returning id"

/-- The query text of `PostgresStore.GetAllUsers`. -/
def getAllUsersQuery : String :=
  "select * from users"

/-- The query text of `PostgresStore.GetUserById`. -/
def getUserByIdQuery : String :=
  "select * from users where id = $1 limit 1"

/-- The query text of `PostgresStore.GetUserByUsername`. -/
def getUserByUsernameQuery : String :=
  "select * from users where username = $1 limit 1"

/-- The query text of `PostgresStore.UpdateUser`. -/
def updateUserQuery : String :=
  "update users set username=$1, passwordHashed=$2, level=$3 where id=$4"

/-- The query text of `PostgresStore.DeleteUserById`. -/
def deleteUserByIdQuery : String :=
  "delete from users where id=$1"

/-- The query text of `PostgresStore.CreateProduct`. -/
def createProductQuery : String :=
  "insert into products\n" ++
    "\t(type, title, description, price, gender, color, small, medium,large, imageUrl, imageAlt)\n" ++
    "\tvalues ($1, $2, $3, $4, $5, $6, $7, $8, $9, $10, $11)\n" ++
    "\treturning id"

/-- The query text of `PostgresStore.GetAllProducts`. -/
def getAllProductsQuery : String :=
  "select * from products"

/-- The query text of `PostgresStore.GetProductsByType`. -/
def getProductsByTypeQuery : String :=
  "select * from products where type=$1"

/-- The query text of `PostgresStore.GetProductById`. -/
def getProductByIdQuery : String :=
  "select * from products where id = $1 limit 1"

/-- The query text of `PostgresStore.GetProductByTitle`. -/
def getProductByTitleQuery : String :=
  "select * from products where title = $1 limit 1"

/-- The query text of `PostgresStore.UpdateProduct`. -/
def updateProductQuery : String :=
  "update products \n" ++
    "\tset type=$1,\n" ++
    "\ttitle=$2,\n" ++
    "\tdescription=$3,\n" ++
    "\tprice=$4,\n" ++
    "\tgender=$5,\n" ++
    "\tcolor=$6,\n" ++
    "\tsmall=$7,\n" ++
    "\tmedium=$8,\n" ++
    "\tlarge=$9,\n" ++
    "\timageUrl=$10,\n" ++
    "\timageAlt=$11 where id=$12"

/-- The query text of `PostgresStore.DeleteProductById`. -/
def deleteProductByIdQuery : String :=
  "delete from products where id=$1"

/-- The eleven column values of a product, in the order the product statements pass them. -/
def productColumns (p : Product) : List SqlValue :=
  [.text p.Typ, .text p.Title, .text p.Description, .float p.Price, .text p.Gender,
    .text p.Color, .int p.Small, .int p.Medium, .int p.Large, .text p.ImageUrl,
    .text p.ImageAlt]

/-- Go `PostgresStore.createUserTable`: `s.db.Exec(query)`. -/
def PostgresStore.createUserTable : Statement :=
  ⟨.Exec, createUserTableQuery, []⟩

/-- Go `PostgresStore.createProductTable`: `s.db.Exec(query)`. -/
def PostgresStore.createProductTable : Statement :=
  ⟨.Exec, createProductTableQuery, []⟩

/-- Go `PostgresStore.CreateUser`: `s.db.QueryRow(query, u.Username, u.PasswordHashed,
u.Level)`. -/
def PostgresStore.CreateUser (u : User) : Statement :=
  ⟨.QueryRow, createUserQuery, [.text u.Username, .text u.PasswordHashed, .int u.Level]⟩

/-- Go `PostgresStore.GetAllUsers`: `s.db.Query(query)`. -/
def PostgresStore.GetAllUsers : Statement :=
  ⟨.Query, getAllUsersQuery, []⟩

/-- Go `PostgresStore.GetUserById`: `s.db.QueryRow(query, id)`. -/
def PostgresStore.GetUserById (id : Int) : Statement :=
  ⟨.QueryRow, getUserByIdQuery, [.int id]⟩

/-- Go `PostgresStore.GetUserByUsername`: `s.db.QueryRow(query, username)`. -/
def PostgresStore.GetUserByUsername (username : String) : Statement :=
  ⟨.QueryRow, getUserByUsernameQuery, [.text username]⟩

/-- Go `PostgresStore.UpdateUser`: `s.db.Exec(query, u.Username, u.PasswordHashed, u.Level,
u.Id)`. -/
def PostgresStore.UpdateUser (u : User) : Statement :=
  ⟨.Exec, updateUserQuery,
    [.text u.Username, .text u.PasswordHashed, .int u.Level, .int u.Id]⟩

/-- Go `PostgresStore.DeleteUserById`: `s.db.Exec(query, id)`. -/
def PostgresStore.DeleteUserById (id : Int) : Statement :=
  ⟨.Exec, deleteUserByIdQuery, [.int id]⟩

/-- Go `PostgresStore.CreateProduct`: `s.db.QueryRow(query, p.Type, ..., p.ImageAlt)`, the
eleven column values. -/
def PostgresStore.CreateProduct (p : Product) : Statement :=
  ⟨.QueryRow, createProductQuery, productColumns p⟩

/-- Go `PostgresStore.GetAllProducts`: `s.db.Query(query)`. -/
def PostgresStore.GetAllProducts : Statement :=
  ⟨.Query, getAllProductsQuery, []⟩

/-- Go `PostgresStore.GetProductsByType`: `s.db.Query(query, t)`. -/
def PostgresStore.GetProductsByType (t : String) : Statement :=
  ⟨.Query, getProductsByTypeQuery, [.text t]⟩

/-- Go `PostgresStore.GetProductById`: `s.db.QueryRow(query, id)`. -/
def PostgresStore.GetProductById (id : Int) : Statement :=
  ⟨.QueryRow, getProductByIdQuery, [.int id]⟩

/-- Go `PostgresStore.GetProductByTitle`: `s.db.QueryRow(query, title)`. -/
def PostgresStore.GetProductByTitle (title : String) : Statement :=
  ⟨.QueryRow, getProductByTitleQuery, [.text title]⟩

/-- Go `PostgresStore.UpdateProduct`: `s.db.Exec(query, p.Type, ..., p.ImageAlt)`, the eleven
column values and nothing after them. -/
def PostgresStore.UpdateProduct (p : Product) : Statement :=
  ⟨.Exec, updateProductQuery, productColumns p⟩

/-- Go `PostgresStore.DeleteProductById`: `s.db.Exec(query)`; the parameter `id` is not
passed on. -/
def PostgresStore.DeleteProductById (_id : Int) : Statement :=
  ⟨.Exec, deleteProductByIdQuery, []⟩

/-! ## Lemmas on the token library -/

/-- The key function answers with the secret exactly for the HMAC family. -/
theorem keyFunc_ok_iff (secret : String) (token : Token) (key : String) :
    keyFunc secret token = .ok key ↔ (∃ alg, token.Method = some (.HMAC alg)) ∧ key = secret := by
  unfold keyFunc
  split
  · rename_i alg h
    constructor
    · intro hk
      injection hk with hk
      exact ⟨⟨alg, h⟩, hk.symm⟩
    · rintro ⟨_, rfl⟩
      rfl
  · rename_i h
    constructor
    · intro hk
      cases hk
    · rintro ⟨⟨alg, ha⟩, _⟩
      exact absurd ha (h alg)

/-- A successful `ParseUnverified` leaves a token that is not yet valid and carries a
registered method and a claims map. -/
theorem ParseUnverified_ok {ts : TokenString} {tok : Option Token}
    (h : ParseUnverified ts = (tok, none)) :
    ∃ input sig method header claims,
      ts = .compact input sig ∧ tok = some ⟨some method, header, .MapClaims claims, false⟩ ∧
        unmarshalObject input.header = .ok header ∧
        unmarshalObject input.claims = .ok claims := by
  unfold ParseUnverified at h
  split at h
  · simp at h
  · rename_i input sig
    split at h
    · simp at h
    · rename_i header hh
      split at h
      · simp at h
      · rename_i claims hc
        split at h
        · split at h
          · rename_i alg _ method _
            simp only [Prod.mk.injEq, and_true] at h
            exact ⟨input, sig, method, header, claims, rfl, h.symm, hh, hc⟩
          · simp at h
        · simp at h

/-- What `jwt.Parse` returning no error means: three decodable segments, a registered
method, a key from the key function, a verified signature and valid claims; the token
handed back is the parsed one marked valid. -/
theorem Parse_ok {env : Env} {ts : TokenString} {kf : Token → Except String String}
    {tok : Option Token} (h : Parse env ts kf = (tok, none)) :
    ∃ input sig method header claims key,
      ts = .compact input sig ∧ tok = some ⟨some method, header, .MapClaims claims, true⟩ ∧
        unmarshalObject input.header = .ok header ∧
        unmarshalObject input.claims = .ok claims ∧
        kf ⟨some method, header, .MapClaims claims, false⟩ = .ok key ∧
        method.Verify env input sig key = none ∧ claims.Valid env = none := by
  rcases hp : ParseUnverified ts with ⟨tok1, err1⟩
  cases err1 with
  | some e => simp [Parse, hp] at h
  | none =>
    obtain ⟨input, sig, method, header, claims, rfl, rfl, hh, hc⟩ := ParseUnverified_ok hp
    simp only [Parse, hp] at h
    cases hk : kf ⟨some method, header, .MapClaims claims, false⟩ with
    | error e => simp [hk] at h
    | ok key =>
      simp only [hk] at h
      cases hv : method.Verify env input sig key with
      | some e => simp [hv] at h
      | none =>
        cases hm : claims.Valid env with
        | some e => simp [hv, hm] at h
        | none =>
          simp only [hv, hm, Prod.mk.injEq, and_true] at h
          exact ⟨input, sig, method, header, claims, key, rfl, h.symm, hh, hc, hk, hv, hm⟩

/-- What `ValidateJWT` returning no error means: the token is of the HMAC family, its
signature verifies under the value of `JWT_SECRET`, and it is handed back marked valid with
its claims map. -/
theorem ValidateJWT_ok {env : Env} {ts : TokenString} {tok : Option Token}
    (h : ValidateJWT env ts = (tok, none)) :
    ∃ input sig alg header claims,
      ts = .compact input sig ∧
        tok = some ⟨some (.HMAC alg), header, .MapClaims claims, true⟩ ∧
        unmarshalObject input.claims = .ok claims ∧
        (SigningMethod.HMAC alg).Verify env input sig (osGetenv env "JWT_SECRET") = none := by
  obtain ⟨input, sig, method, header, claims, key, rfl, rfl, _, hc, hk, hv, _⟩ := Parse_ok h
  obtain ⟨⟨alg, ha⟩, rfl⟩ := (keyFunc_ok_iff _ _ _).1 hk
  simp only [Option.some.injEq] at ha
  subst ha
  exact ⟨input, sig, alg, header, claims, rfl, rfl, hc, hv⟩

/-! ## Lemmas on the access gate, one per exit of `protectMiddleware` -/

/-- Exit 1: no `token` cookie. -/
theorem gate_no_cookie (env : Env) (next : Request → Exec) (r : Request) (e : String)
    (hc : r.Cookie "token" = .error e) :
    protectMiddleware env next r = .ret [.log e, .httpError "error: not authorized" 401] := by
  simp [protectMiddleware, hc]

/-- Exit 2: `ValidateJWT` returned an error. -/
theorem gate_token_error (env : Env) (next : Request → Exec) (r : Request)
    (ts : TokenString) (tok : Option Token) (err : String)
    (hc : r.Cookie "token" = .ok ts) (hv : ValidateJWT env ts = (tok, some err)) :
    protectMiddleware env next r = .ret [.log err, .httpError "error: not authorized" 401] := by
  simp [protectMiddleware, hc, hv]

/-- Exit 3: an accepted token whose `userId` claim is absent or not a number. The gate calls
`err.Error()` on the nil error and panics before writing anything. -/
theorem gate_claim_missing (env : Env) (next : Request → Exec) (r : Request)
    (ts : TokenString) (token : Token) (claims : MapClaims)
    (hc : r.Cookie "token" = .ok ts) (hv : ValidateJWT env ts = (some token, none))
    (hcl : token.Claims = .MapClaims claims)
    (hu : ∀ f, claims.get "userId" ≠ some (.float64 f)) :
    protectMiddleware env next r = .panic [] nilDereference := by
  obtain ⟨input, sig, alg, header, claims1, rfl, htok, _, _⟩ := ValidateJWT_ok hv
  simp only [Option.some.injEq] at htok
  subst htok
  simp only [Claims.MapClaims.injEq] at hcl
  subst hcl
  cases hg : claims1.get "userId" with
  | none => simp [protectMiddleware, hc, hv, hg, Exec.panic]
  | some v =>
    cases v with
    | float64 f => exact absurd hg (hu f)
    | _ => simp [protectMiddleware, hc, hv, hg, Exec.panic]

/-- Exit 4: the store has no user for the identifier of the token. -/
theorem gate_user_not_found (env : Env) (next : Request → Exec) (r : Request)
    (ts : TokenString) (token : Token) (claims : MapClaims) (userId : Float64) (err : String)
    (hc : r.Cookie "token" = .ok ts) (hv : ValidateJWT env ts = (some token, none))
    (hcl : token.Claims = .MapClaims claims)
    (hu : claims.get "userId" = some (.float64 userId))
    (hs : env.store.GetUserById (goInt env.intOutOfRange userId) = .error err) :
    protectMiddleware env next r =
      .ret [.store (.GetUserById (goInt env.intOutOfRange userId)), .log err,
        .httpError "error: user not found" 404] := by
  obtain ⟨input, sig, alg, header, claims1, rfl, htok, _, _⟩ := ValidateJWT_ok hv
  simp only [Option.some.injEq] at htok
  subst htok
  simp only [Claims.MapClaims.injEq] at hcl
  subst hcl
  simp [protectMiddleware, hc, hv, hu, hs]

/-- Exits 5 to 7: the user was found. The path decides: no second segment is an index
panic; second segment `products` or `users` with too high a level is a denial; everything
else runs the wrapped handler on the request carrying the user. -/
theorem gate_user_found (env : Env) (next : Request → Exec) (r : Request)
    (ts : TokenString) (token : Token) (claims : MapClaims) (userId : Float64) (user : User)
    (hc : r.Cookie "token" = .ok ts) (hv : ValidateJWT env ts = (some token, none))
    (hcl : token.Claims = .MapClaims claims)
    (hu : claims.get "userId" = some (.float64 userId))
    (hs : env.store.GetUserById (goInt env.intOutOfRange userId) = .ok user) :
    protectMiddleware env next r =
      match (stringsSplit r.Path '/').get? 1 with
      | none =>
        .panic [.store (.GetUserById (goInt env.intOutOfRange userId))]
          "runtime error: index out of range"
      | some endpoint =>
        if (endpoint = "products" ∧ user.Level > 1) ∨ (endpoint = "users" ∧ user.Level > 0) then
          .ret [.store (.GetUserById (goInt env.intOutOfRange userId)),
            .log (levelDenied user endpoint), .httpError "not authorized" 401]
        else
          .after [.store (.GetUserById (goInt env.intOutOfRange userId))]
            (next (r.WithContext user)) := by
  obtain ⟨input, sig, alg, header, claims1, rfl, htok, _, _⟩ := ValidateJWT_ok hv
  simp only [Option.some.injEq] at htok
  subst htok
  simp only [Claims.MapClaims.injEq] at hcl
  subst hcl
  simp only [protectMiddleware, hc, hv, hu, hs]
  cases hp : (stringsSplit r.Path '/').get? 1 with
  | none => simp
  | some endpoint =>
    simp only [Bool.not_true, Bool.false_eq_true, if_false]
    by_cases h1 : endpoint = "products"
    · subst h1
      by_cases h2 : user.Level > 1 <;> simp [h2]
    · by_cases h3 : endpoint = "users"
      · subst h3
        by_cases h4 : user.Level > 0 <;> simp [h4]
      · simp [h1, h3]

/-- Every run of the gate leaves by one of its exits. In the first five the run does not
depend on the wrapped handler; in the last the wrapped handler runs once, after the store
lookup and before any write to the response, on the request that carries the user found. -/
theorem gate_cases (env : Env) (r : Request) :
    (∃ e, ∀ next, protectMiddleware env next r =
        .ret [.log e, .httpError "error: not authorized" 401]) ∨
    (∀ next, protectMiddleware env next r = .panic [] nilDereference) ∨
    (∃ id e, ∀ next, protectMiddleware env next r =
        .ret [.store (.GetUserById id), .log e, .httpError "error: user not found" 404]) ∨
    (∃ id, ∀ next, protectMiddleware env next r =
        .panic [.store (.GetUserById id)] "runtime error: index out of range") ∨
    (∃ id msg, ∀ next, protectMiddleware env next r =
        .ret [.store (.GetUserById id), .log msg, .httpError "not authorized" 401]) ∨
    (∃ ts token claims userId user,
      r.Cookie "token" = .ok ts ∧ ValidateJWT env ts = (some token, none) ∧
        token.Valid = true ∧ token.Claims = .MapClaims claims ∧
        claims.get "userId" = some (.float64 userId) ∧
        env.store.GetUserById (goInt env.intOutOfRange userId) = .ok user ∧
        ∀ next, protectMiddleware env next r =
          .after [.store (.GetUserById (goInt env.intOutOfRange userId))]
            (next (r.WithContext user))) := by
  cases hc : r.Cookie "token" with
  | error e => exact Or.inl ⟨e, fun next => gate_no_cookie env next r e hc⟩
  | ok ts =>
    rcases hv : ValidateJWT env ts with ⟨tok, err⟩
    cases err with
    | some e => exact Or.inl ⟨e, fun next => gate_token_error env next r ts tok e hc hv⟩
    | none =>
      obtain ⟨input, sig, alg, header, claims, rfl, rfl, _, _⟩ := ValidateJWT_ok hv
      by_cases hf : ∃ f, claims.get "userId" = some (.float64 f)
      · obtain ⟨f, hf⟩ := hf
        cases hs : env.store.GetUserById (goInt env.intOutOfRange f) with
        | error e =>
          exact Or.inr (Or.inr (Or.inl ⟨goInt env.intOutOfRange f, e, fun next =>
            gate_user_not_found env next r _ _ claims f e hc hv rfl hf hs⟩))
        | ok user =>
          have hfound := fun next => gate_user_found env next r _ _ claims f user hc hv rfl hf hs
          cases hp : (stringsSplit r.Path '/').get? 1 with
          | none =>
            refine Or.inr (Or.inr (Or.inr (Or.inl
              ⟨goInt env.intOutOfRange f, fun next => ?_⟩)))
            rw [hfound next, hp]
          | some endpoint =>
            by_cases hd : (endpoint = "products" ∧ user.Level > 1) ∨
                (endpoint = "users" ∧ user.Level > 0)
            · refine Or.inr (Or.inr (Or.inr (Or.inr (Or.inl
                ⟨goInt env.intOutOfRange f, levelDenied user endpoint, fun next => ?_⟩))))
              rw [hfound next, hp]
              simp only [hd, if_true]
            · refine Or.inr (Or.inr (Or.inr (Or.inr (Or.inr
                ⟨_, _, claims, f, user, rfl, hv, rfl, rfl, hf, hs, fun next => ?_⟩))))
              rw [hfound next, hp]
              simp only [hd, if_false]
      · refine Or.inr (Or.inl fun next => ?_)
        exact gate_claim_missing env next r _ _ claims hc hv rfl
          (fun f h => hf ⟨f, h⟩)

/-- Splitting always yields at least one segment. -/
theorem splitChars_ne_nil (sep : Char) (cs : List Char) : splitChars sep cs ≠ [] := by
  cases cs with
  | nil => simp [splitChars]
  | cons c cs =>
    unfold splitChars
    split
    · simp
    · split <;> simp

/-- A text that contains the separator splits into at least two segments. -/
theorem splitChars_of_mem (sep : Char) (cs : List Char) (h : sep ∈ cs) :
    ∃ a b rest, splitChars sep cs = a :: b :: rest := by
  induction cs with
  | nil => simp at h
  | cons c cs ih =>
    unfold splitChars
    by_cases hc : c = sep
    · simp only [hc, if_true]
      cases hs : splitChars sep cs with
      | nil => exact absurd hs (splitChars_ne_nil sep cs)
      | cons b rest => exact ⟨[], b, rest, rfl⟩
    · have hmem : sep ∈ cs := by
        rcases List.mem_cons.1 h with h1 | h1
        · exact absurd h1.symm hc
        · exact h1
      obtain ⟨a, b, rest, hs⟩ := ih hmem
      simp only [hc, if_false, hs]
      exact ⟨c :: a, b, rest, rfl⟩

/-- A path that contains a slash has a second segment. -/
theorem stringsSplit_second (path : String) (h : '/' ∈ path.data) :
    ∃ endpoint, (stringsSplit path '/').get? 1 = some endpoint := by
  obtain ⟨a, b, rest, hs⟩ := splitChars_of_mem '/' path.data h
  exact ⟨String.mk b, by simp [stringsSplit, hs]⟩

/-! ## Lemmas on the router -/

/-- A text without the separator is its own single segment. -/
theorem splitChars_of_not_mem (sep : Char) (cs : List Char) (h : sep ∉ cs) :
    splitChars sep cs = [cs] := by
  induction cs with
  | nil => rfl
  | cons c cs ih =>
    have hc : c ≠ sep := fun hc => h (by simp [hc])
    have hcs : sep ∉ cs := fun hm => h (List.mem_cons_of_mem _ hm)
    unfold splitChars
    simp only [hc, if_false, ih hcs]

/-- A path that splits into two segments or more contains a slash. -/
theorem slash_of_split (path : String) (a b : String) (rest : List String)
    (h : stringsSplit path '/' = a :: b :: rest) : '/' ∈ path.data := by
  by_contra hn
  simp [stringsSplit, splitChars_of_not_mem '/' path.data hn] at h

/-- The paths the template `/api/users` matches. -/
theorem muxMatch_users (path : String) (vars : List (String × String))
    (h : muxMatch "/api/users" path = some vars) :
    stringsSplit path '/' = ["", "api", "users"] ∧ vars = [] := by
  have hp : stringsSplit "/api/users" '/' = ["", "api", "users"] := by decide
  have v0 : segmentVar "" = none := by decide
  have v1 : segmentVar "api" = none := by decide
  have v2 : segmentVar "users" = none := by decide
  unfold muxMatch at h
  rw [hp] at h
  match hs : stringsSplit path '/' with
  | [] => simp [hs, matchSegments] at h
  | [a] => simp [hs, matchSegments, v0, v1, v2] at h
  | [a, b] => simp [hs, matchSegments, v0, v1, v2] at h
  | [a, b, c] =>
    simp only [hs, matchSegments, v0, v1, v2] at h
    by_cases ha : "" = a
    · by_cases hb : "api" = b
      · by_cases hc : "users" = c
        · subst ha hb hc
          simp at h
          exact ⟨rfl, h⟩
        · simp [ha, hb, hc] at h
      · simp [ha, hb] at h
    · simp [ha] at h
  | a :: b :: c :: d :: rest =>
    simp only [hs, matchSegments, v0, v1, v2] at h
    by_cases ha : "" = a
    · by_cases hb : "api" = b
      · by_cases hc : "users" = c
        · simp [ha, hb, hc] at h
        · simp [ha, hb, hc] at h
      · simp [ha, hb] at h
    · simp [ha] at h

/-- The paths the template `/api/users/{userId}` matches. -/
theorem muxMatch_user (path : String) (vars : List (String × String))
    (h : muxMatch "/api/users/{userId}" path = some vars) :
    ∃ v, v ≠ "" ∧ stringsSplit path '/' = ["", "api", "users", v] ∧
      vars = [("userId", v)] := by
  have hp : stringsSplit "/api/users/{userId}" '/' = ["", "api", "users", "{userId}"] := by
    decide
  have v0 : segmentVar "" = none := by decide
  have v1 : segmentVar "api" = none := by decide
  have v2 : segmentVar "users" = none := by decide
  have v3 : segmentVar "{userId}" = some "userId" := by decide
  unfold muxMatch at h
  rw [hp] at h
  match hs : stringsSplit path '/' with
  | [] => simp [hs, matchSegments] at h
  | [a] => simp [hs, matchSegments, v0, v1, v2, v3] at h
  | [a, b] => simp [hs, matchSegments, v0, v1, v2, v3] at h
  | [a, b, c] => simp [hs, matchSegments, v0, v1, v2, v3] at h
  | [a, b, c, d] =>
    simp only [hs, matchSegments, v0, v1, v2, v3] at h
    by_cases ha : "" = a
    · by_cases hb : "api" = b
      · by_cases hc : "users" = c
        · by_cases hd : d = ""
          · simp [ha, hb, hc, hd] at h
          · subst ha hb hc
            simp [hd] at h
            exact ⟨d, hd, rfl, h.symm⟩
        · simp [ha, hb, hc] at h
      · simp [ha, hb] at h
    · simp [ha] at h
  | a :: b :: c :: d :: e :: rest =>
    simp only [hs, matchSegments, v0, v1, v2, v3] at h
    by_cases ha : "" = a
    · by_cases hb : "api" = b
      · by_cases hc : "users" = c
        · by_cases hd : d = ""
          · simp [ha, hb, hc, hd] at h
          · simp [ha, hb, hc, hd] at h
        · simp [ha, hb, hc] at h
      · simp [ha, hb] at h
    · simp [ha] at h

/-- The router hands a request whose path matches `/api/users` to the gate around
`handleUsers`. -/
theorem Run_users (env : Env) (r : Request) (vars : List (String × String))
    (h : muxMatch "/api/users" r.Path = some vars) :
    Run env r = protectMiddleware env (handleUsers env) { r with Vars := vars } := by
  obtain ⟨hs, rfl⟩ := muxMatch_users r.Path vars h
  have h1 : muxMatch "/" r.Path = none := by
    unfold muxMatch; rw [hs]; decide
  have h2 : muxMatch "/api/products" r.Path = none := by
    unfold muxMatch; rw [hs]; decide
  have h3 : muxMatch "/api/products/tracksuits" r.Path = none := by
    unfold muxMatch; rw [hs]; decide
  have h4 : muxMatch "/api/products/windbreakers" r.Path = none := by
    unfold muxMatch; rw [hs]; decide
  have h5 : muxMatch "/api/products/{productTitle}" r.Path = none := by
    unfold muxMatch; rw [hs]; decide
  simp only [Run, routes, dispatch, h1, h2, h3, h4, h5, h]

/-- The router hands a request whose path matches `/api/users/{userId}` to the gate around
`handleUser`. -/
theorem Run_user (env : Env) (r : Request) (vars : List (String × String))
    (h : muxMatch "/api/users/{userId}" r.Path = some vars) :
    Run env r = protectMiddleware env (handleUser env) { r with Vars := vars } := by
  obtain ⟨v, hv, hs, rfl⟩ := muxMatch_user r.Path vars h
  have v0 : segmentVar "" = none := by decide
  have v1 : segmentVar "api" = none := by decide
  have v2 : segmentVar "users" = none := by decide
  have v3 : segmentVar "products" = none := by decide
  have v4 : segmentVar "tracksuits" = none := by decide
  have v5 : segmentVar "windbreakers" = none := by decide
  have v6 : segmentVar "{productTitle}" = some "productTitle" := by decide
  have p1 : stringsSplit "/" '/' = ["", ""] := by decide
  have p2 : stringsSplit "/api/products" '/' = ["", "api", "products"] := by decide
  have p3 : stringsSplit "/api/products/tracksuits" '/' =
      ["", "api", "products", "tracksuits"] := by decide
  have p4 : stringsSplit "/api/products/windbreakers" '/' =
      ["", "api", "products", "windbreakers"] := by decide
  have p5 : stringsSplit "/api/products/{productTitle}" '/' =
      ["", "api", "products", "{productTitle}"] := by decide
  have p6 : stringsSplit "/api/users" '/' = ["", "api", "users"] := by decide
  have h1 : muxMatch "/" r.Path = none := by
    simp [muxMatch, hs, p1, matchSegments, v0]
  have h2 : muxMatch "/api/products" r.Path = none := by
    simp [muxMatch, hs, p2, matchSegments, v0, v1, v3]
  have h3 : muxMatch "/api/products/tracksuits" r.Path = none := by
    simp [muxMatch, hs, p3, matchSegments, v0, v1, v3, v4]
  have h4 : muxMatch "/api/products/windbreakers" r.Path = none := by
    simp [muxMatch, hs, p4, matchSegments, v0, v1, v3, v5]
  have h5 : muxMatch "/api/products/{productTitle}" r.Path = none := by
    simp [muxMatch, hs, p5, matchSegments, v0, v1, v3, v6]
  have h6 : muxMatch "/api/users" r.Path = none := by
    simp [muxMatch, hs, p6, matchSegments, v0, v1, v2]
  simp only [Run, routes, dispatch, h1, h2, h3, h4, h5, h6, h]


/-! ## Lemmas on JSON numbers -/

/-- A number below `2 ^ n` has at most `n` binary digits. -/
theorem bitLength_le (fuel : Nat) : ∀ (a n : Nat), a < 2 ^ n → bitLength fuel a ≤ n := by
  induction fuel with
  | zero => intro a n _; simp [bitLength]
  | succ fuel ih =>
    intro a n h
    unfold bitLength
    by_cases ha : a = 0
    · simp [ha]
    · simp only [ha, if_false]
      cases n with
      | zero =>
        simp at h
        omega
      | succ n =>
        have h2 : a / 2 < 2 ^ n := by
          rw [Nat.pow_succ] at h
          omega
        have := ih (a / 2) n h2
        omega

/-- An integer of magnitude at most `2 ^ 53` survives JSON decoding and `int(...)`. -/
theorem unmarshal_int_exact (oor : Int) (id : Int) (hid : id.natAbs ≤ 2 ^ 53) :
    JsonLit.unmarshal (.int id) = .ok (.float64 ⟨id, 0⟩) ∧ goInt oor ⟨id, 0⟩ = id := by
  have hf : float64OfInt id = ⟨id, 0⟩ := by
    unfold float64OfInt
    exact if_pos hid
  have hb : bitLength id.natAbs id.natAbs ≤ 54 :=
    bitLength_le _ _ 54 (by omega)
  constructor
  · have hfit : bitLength (Float64.mk id 0).m.natAbs (Float64.mk id 0).m.natAbs +
        (Float64.mk id 0).e.toNat ≤ 1024 := by
      simp only [Int.toNat_zero]
      omega
    simp only [JsonLit.unmarshal, hf]
    exact if_pos hfit
  · have h1 : -(2 ^ 63 : Int) ≤ id := by omega
    have h2 : id < (2 ^ 63 : Int) := by omega
    have ht : Float64.trunc ⟨id, 0⟩ = id := by simp [Float64.trunc]
    unfold goInt
    simp only [ht]
    exact if_pos ⟨h1, h2⟩

/-- The double of a Go `int` has a significand below `2 ^ 64` and an exponent of at most 64. -/
theorem float64OfInt_bounds (id : Int) (hid : id.natAbs ≤ 2 ^ 63) :
    (float64OfInt id).m.natAbs < 2 ^ 64 ∧ (float64OfInt id).e.toNat ≤ 64 := by
  have hlen : bitLength id.natAbs id.natAbs ≤ 64 := bitLength_le _ _ 64 (by omega)
  unfold float64OfInt
  by_cases h53 : id.natAbs ≤ 2 ^ 53
  · simp only [h53, if_true]
    constructor
    · omega
    · simp
  · simp only [h53, if_false]
    have hq : id.natAbs / 2 ^ (bitLength id.natAbs id.natAbs - 53) ≤ id.natAbs :=
      Nat.div_le_self _ _
    constructor
    · split_ifs <;> simp only [Int.natAbs_neg, Int.natAbs_ofNat] <;> omega
    · simp only [Int.toNat_ofNat]
      omega

/-- A Go `int` in a claims object decodes, to the double nearest to it. -/
theorem unmarshal_int_ok (id : Int) (hid : id.natAbs ≤ 2 ^ 63) :
    JsonLit.unmarshal (.int id) = .ok (.float64 (float64OfInt id)) := by
  obtain ⟨hm, he⟩ := float64OfInt_bounds id hid
  have hb := bitLength_le (float64OfInt id).m.natAbs (float64OfInt id).m.natAbs 64 hm
  have hfit : bitLength (float64OfInt id).m.natAbs (float64OfInt id).m.natAbs +
      (float64OfInt id).e.toNat ≤ 1024 := by omega
  simp only [JsonLit.unmarshal]
  exact if_pos hfit

/-- What `jwt.Parse` does with a token whose signature is the HMAC of its signing input
under the key the key function returns: when the segments parse to an HMAC method and the
claims are valid, the token is accepted. -/
theorem ValidateJWT_accepts (env : Env) (ha : env.hashAvailable = true) (input : SigningInput)
    (alg : String) (header claims : MapClaims)
    (hp : ParseUnverified (.compact input (some (env.hmac alg (osGetenv env "JWT_SECRET") input))) =
      (some ⟨some (.HMAC alg), header, .MapClaims claims, false⟩, none))
    (hv : claims.Valid env = none) :
    ValidateJWT env (.compact input (some (env.hmac alg (osGetenv env "JWT_SECRET") input))) =
      (some ⟨some (.HMAC alg), header, .MapClaims claims, true⟩, none) := by
  simp [ValidateJWT, Parse, hp, keyFunc, SigningMethod.Verify, ha, hv]

/-- The segments of the token `CreateJWT` issues for a Go `int` parse to the HS256 method
and the claim `userId` as the double nearest to the id. -/
theorem ParseUnverified_issued (id : Int) (hid : id.natAbs ≤ 2 ^ 63) (sig : Option String) :
    ParseUnverified (.compact ⟨hs256Header, [("userId", .int id)]⟩ sig) =
      (some ⟨some (.HMAC "HS256"), [("alg", .string "HS256"), ("typ", .string "JWT")],
        .MapClaims [("userId", .float64 (float64OfInt id))], false⟩, none) := by
  have hclaims : unmarshalObject [("userId", JsonLit.int id)] =
      .ok [("userId", .float64 (float64OfInt id))] := by
    simp [unmarshalObject, unmarshal_int_ok id hid]
  have hheader : unmarshalObject hs256Header =
      .ok [("alg", .string "HS256"), ("typ", .string "JWT")] := by
    simp [unmarshalObject, hs256Header, JsonLit.unmarshal]
  simp [ParseUnverified, hclaims, hheader, headerAlg, MapClaims.get, GetSigningMethod]


/-! ## The claims -/

/-- C1 (code defect). On the routes `/api/users` and `/api/users/{userId}` the segment that
`strings.Split(path, "/")[1]` selects is `api`, so neither case of the level switch applies:
with the valid token of `alice`, whose level is 1, `GET /api/users` reaches `handleUsers`
and is answered 200 with the list of users, and `DELETE /api/users/9` reaches `handleUser`
and deletes user 9. -/
theorem users_routes_ignore_level :
    alice.Level = 1 ∧
      (stringsSplit "/api/users" '/').get? 1 = some "api" ∧
      (stringsSplit "/api/users/9" '/').get? 1 = some "api" ∧
      Run world (request "GET" "/api/users" aliceCookie "") =
        .after [.store (.GetUserById 7)]
          (handleUsers world ((request "GET" "/api/users" aliceCookie "").WithContext alice)) ∧
      Run world (request "GET" "/api/users" aliceCookie "") =
        .ret [.store (.GetUserById 7), .store .GetAllUsers, .writeHeader 200,
          .setHeader "Content-Type" "application/json", .write (.users [root, alice, carol])] ∧
      Run world (request "DELETE" "/api/users/9" aliceCookie "") =
        .ret [.store (.GetUserById 7), .store (.DeleteUserById 9), .writeHeader 200,
          .setHeader "Content-Type" "application/json", .write (.string "user deleted")] := by
  decide

/-- C2 (code defect). `Run` registers `handleProducts` and `handleProduct` without the gate:
`POST` and `PUT` on `/api/products` with no cookie at all create and update the product in
the store, and `DELETE /api/products/neon-jacket` with the token of `carol`, whose level is
2, deletes product 3; no run contains a lookup of the principal. -/
theorem product_routes_skip_gate :
    carol.Level = 2 ∧
      Run world (request "POST" "/api/products" [] "jacket") =
        .ret [.store (.CreateProduct jacket), .writeHeader 201,
          .setHeader "Content-Type" "application/json", .write (.int 4)] ∧
      Run world (request "PUT" "/api/products" [] "jacket") =
        .ret [.store (.UpdateProduct jacket), .writeHeader 201,
          .setHeader "Content-Type" "application/json", .write (.string "product updated")] ∧
      Run world (request "DELETE" "/api/products/neon-jacket" carolCookie "") =
        .ret [.store (.GetProductByTitle "neon jacket"), .store (.DeleteProductById 3),
          .writeHeader 200, .setHeader "Content-Type" "application/json",
          .write (.string "product deleted")] := by
  decide

/-- C3 (code defect). A malformed token and a token signed with another key are answered
401 `error: not authorized`. A token that `ValidateJWT` accepts but whose `userId` claim is
absent, or is a string, does not get that response: the gate evaluates `err.Error()` on the
nil error and the run ends in a nil-dereference panic with nothing written. -/
theorem claim_missing_panics :
    Run world (request "GET" "/api/users" [("token", .malformed "abc")] "") =
        .ret [.log "token is malformed", .httpError "error: not authorized" 401] ∧
      Run world
          (request "GET" "/api/users" [("token", signedWith "other" [("userId", .int 1)])] "") =
        .ret [.log "signature is invalid", .httpError "error: not authorized" 401] ∧
      (ValidateJWT world (signedWith "k" [])).2 = none ∧
      Run world (request "GET" "/api/users" [("token", signedWith "k" [])] "") =
        .panic [] nilDereference ∧
      (ValidateJWT world (signedWith "k" [("userId", .string "7")])).2 = none ∧
      Run world
          (request "GET" "/api/users" [("token", signedWith "k" [("userId", .string "7")])] "") =
        .panic [] nilDereference ∧
      (Run world (request "GET" "/api/users" [("token", signedWith "k" [])] "")).response =
        [] := by
  decide

/-- C4. A request without a cookie named `token` is answered by the gate with status 401:
the run logs the cookie error, writes the `http.Error` response and returns; it makes no
call on the store and is the same whatever the wrapped handler is. -/
theorem no_cookie_unauthenticated (env : Env) (next : Request → Exec) (r : Request)
    (h : ∀ c ∈ r.Cookies, c.1 ≠ "token") :
    protectMiddleware env next r =
        .ret [.log "http: named cookie not present",
          .httpError "error: not authorized" 401] ∧
      (protectMiddleware env next r).status = some 401 ∧
      (protectMiddleware env next r).storeCalls = [] ∧
      (protectMiddleware env next r).outcome = .returned ∧
      ∀ other : Request → Exec, protectMiddleware env other r = protectMiddleware env next r := by
  have hc : r.Cookie "token" = .error "http: named cookie not present" := by
    have hfind : r.Cookies.find? (fun c => c.1 = "token") = none := by
      rw [List.find?_eq_none]
      intro c hc
      simpa using h c hc
    simp [Request.Cookie, hfind]
  have hrun := fun n => gate_no_cookie env n r _ hc
  refine ⟨hrun next, ?_, ?_, ?_, fun other => ?_⟩
  · rw [hrun next]; rfl
  · rw [hrun next]; rfl
  · rw [hrun next]; rfl
  · rw [hrun next, hrun other]

/-- C4, at a request that carries only a cookie of another name. -/
theorem no_cookie_unauthenticated_witness :
    (protectMiddleware world (handleUsers world)
        (request "GET" "/api/users" [("session", .malformed "abc")] "")).status = some 401 ∧
      (protectMiddleware world (handleUsers world)
        (request "GET" "/api/users" [("session", .malformed "abc")] "")).storeCalls = [] :=
  have h := no_cookie_unauthenticated world (handleUsers world)
    (request "GET" "/api/users" [("session", .malformed "abc")] "") (by decide)
  ⟨h.2.1, h.2.2.1⟩

/-- Off the routes: on the path `*`, which has no slash and which `Run` never hands to the
gate, `strings.Split(path, "/")[1]` is an index out of range after the store lookup. -/
theorem gate_panics_without_slash :
    protectMiddleware world (handleUsers world) (request "GET" "*" rootCookie "") =
      .panic [.store (.GetUserById 1)] "runtime error: index out of range" := by
  decide

/-- C5. For every request, either the run of the gate is the same whatever the wrapped
handler is (it is not invoked), or the cookie was present, `ValidateJWT` accepted it, its
`userId` claim was a number and the store returned a user for it, and the run is: the store
lookup, then the wrapped handler, once, on the request that carries exactly that user, so
that the response is the wrapped handler's alone. A level-0 principal is passed through for
every request path the gate is mounted on (`/api/users` and `/api/users/{userId}`, the
requests `Run` hands to it), and more generally for every path that contains a slash, as
those paths do. -/
theorem next_invoked_once (env : Env) (r : Request) :
    ((∃ x : Exec, ∀ next, protectMiddleware env next r = x) ∨
      ∃ ts token claims userId user,
        r.Cookie "token" = .ok ts ∧ ValidateJWT env ts = (some token, none) ∧
          token.Valid = true ∧ token.Claims = .MapClaims claims ∧
          claims.get "userId" = some (.float64 userId) ∧
          env.store.GetUserById (goInt env.intOutOfRange userId) = .ok user ∧
          (r.WithContext user).ContextUser = some user ∧
          ∀ next,
            protectMiddleware env next r =
                .after [.store (.GetUserById (goInt env.intOutOfRange userId))]
                  (next (r.WithContext user)) ∧
              (protectMiddleware env next r).response = (next (r.WithContext user)).response) ∧
      (∀ ts token claims userId user,
        r.Cookie "token" = .ok ts → ValidateJWT env ts = (some token, none) →
          token.Claims = .MapClaims claims →
          claims.get "userId" = some (.float64 userId) →
          env.store.GetUserById (goInt env.intOutOfRange userId) = .ok user →
          user.Level = 0 → '/' ∈ r.Path.data →
          ∀ next,
            protectMiddleware env next r =
              .after [.store (.GetUserById (goInt env.intOutOfRange userId))]
                (next (r.WithContext user))) ∧
      (∀ vars ts token claims userId user,
        (muxMatch "/api/users" r.Path = some vars ∨
            muxMatch "/api/users/{userId}" r.Path = some vars) →
          r.Cookie "token" = .ok ts → ValidateJWT env ts = (some token, none) →
          token.Claims = .MapClaims claims →
          claims.get "userId" = some (.float64 userId) →
          env.store.GetUserById (goInt env.intOutOfRange userId) = .ok user →
          user.Level = 0 →
          ∀ next,
            protectMiddleware env next r =
              .after [.store (.GetUserById (goInt env.intOutOfRange userId))]
                (next (r.WithContext user))) ∧
      (∀ vars,
        (muxMatch "/api/users" r.Path = some vars ∨
            muxMatch "/api/users/{userId}" r.Path = some vars) →
          '/' ∈ r.Path.data) ∧
      (∀ vars, muxMatch "/api/users" r.Path = some vars →
        Run env r = protectMiddleware env (handleUsers env) { r with Vars := vars }) ∧
      ∀ vars, muxMatch "/api/users/{userId}" r.Path = some vars →
        Run env r = protectMiddleware env (handleUser env) { r with Vars := vars } := by
  have hslash : ∀ vars,
      (muxMatch "/api/users" r.Path = some vars ∨
          muxMatch "/api/users/{userId}" r.Path = some vars) →
        '/' ∈ r.Path.data := by
    intro vars hm
    rcases hm with hm | hm
    · exact slash_of_split r.Path _ _ _ (muxMatch_users r.Path vars hm).1
    · obtain ⟨v, _, hs, _⟩ := muxMatch_user r.Path vars hm
      exact slash_of_split r.Path _ _ _ hs
  have hzero : ∀ ts token claims userId user,
      r.Cookie "token" = .ok ts → ValidateJWT env ts = (some token, none) →
        token.Claims = .MapClaims claims →
        claims.get "userId" = some (.float64 userId) →
        env.store.GetUserById (goInt env.intOutOfRange userId) = .ok user →
        user.Level = 0 → '/' ∈ r.Path.data →
        ∀ next,
          protectMiddleware env next r =
            .after [.store (.GetUserById (goInt env.intOutOfRange userId))]
              (next (r.WithContext user)) := by
    intro ts token claims userId user hc hv hcl hu hs hlevel hpath next
    obtain ⟨endpoint, hp⟩ := stringsSplit_second r.Path hpath
    rw [gate_user_found env next r ts token claims userId user hc hv hcl hu hs, hp]
    simp [hlevel]
  refine ⟨?_, hzero, ?_, hslash, fun vars hm => Run_users env r vars hm,
    fun vars hm => Run_user env r vars hm⟩
  · rcases gate_cases env r with h | h | h | h | h | h
    · obtain ⟨e, h⟩ := h
      exact Or.inl ⟨_, h⟩
    · exact Or.inl ⟨_, h⟩
    · obtain ⟨id, e, h⟩ := h
      exact Or.inl ⟨_, h⟩
    · obtain ⟨id, h⟩ := h
      exact Or.inl ⟨_, h⟩
    · obtain ⟨id, msg, h⟩ := h
      exact Or.inl ⟨_, h⟩
    · obtain ⟨ts, token, claims, userId, user, hc, hv, hvalid, hcl, hu, hs, h⟩ := h
      refine Or.inr ⟨ts, token, claims, userId, user, hc, hv, hvalid, hcl, hu, hs, rfl,
        fun next => ⟨h next, ?_⟩⟩
      rw [h next]
      simp [Exec.response, Exec.after, Event.isResponse]
  · intro vars ts token claims userId user hm hc hv hcl hu hs hlevel next
    exact hzero ts token claims userId user hc hv hcl hu hs hlevel (hslash vars hm) next

/-- C5, at `GET /api/users` with the token of the level-0 principal `root`: the path matches
the route of the gate, and the wrapped handler runs on the request that carries `root`. -/
theorem next_invoked_once_witness :
    protectMiddleware world (handleUsers world) (request "GET" "/api/users" rootCookie "") =
      .after [.store (.GetUserById 1)]
        (handleUsers world ((request "GET" "/api/users" rootCookie "").WithContext root)) :=
  (next_invoked_once world (request "GET" "/api/users" rootCookie "")).2.2.1 []
    (signedWith "k" [("userId", .int 1)])
    ⟨some (.HMAC "HS256"), [("alg", .string "HS256"), ("typ", .string "JWT")],
      .MapClaims [("userId", .float64 ⟨1, 0⟩)], true⟩
    [("userId", .float64 ⟨1, 0⟩)] ⟨1, 0⟩ root
    (Or.inl (by decide)) rfl (by decide) rfl (by decide) rfl (by decide)
    (handleUsers world)

/-- C6 (as stated, refuted). Two requests the gate denies get different responses: without
a cookie the caller reads 401 `error: not authorized`, with a valid token of a principal
the store does not hold it reads 404 `error: user not found`. -/
theorem denials_distinguishable :
    Denies world (request "GET" "/api/users" [] "") "error: not authorized" 401 ∧
      Denies world
        (request "GET" "/api/users" [("token", signedWith "k" [("userId", .int 5)])] "")
        "error: user not found" 404 ∧
      (protectMiddleware world (handleUsers world) (request "GET" "/api/users" [] "")).response ≠
        (protectMiddleware world (handleUsers world)
          (request "GET" "/api/users" [("token", signedWith "k" [("userId", .int 5)])]
            "")).response := by
  refine ⟨fun next => ?_, fun next => ?_, by decide⟩
  · rw [gate_no_cookie world next (request "GET" "/api/users" [] "")
      "http: named cookie not present" rfl]
    exact ⟨rfl, rfl⟩
  · rw [gate_user_not_found world next
      (request "GET" "/api/users" [("token", signedWith "k" [("userId", .int 5)])] "")
      (signedWith "k" [("userId", .int 5)])
      ⟨some (.HMAC "HS256"), [("alg", .string "HS256"), ("typ", .string "JWT")],
        .MapClaims [("userId", .float64 ⟨5, 0⟩)], true⟩
      [("userId", .float64 ⟨5, 0⟩)] ⟨5, 0⟩ "sql: no rows in result set"
      rfl (by decide) rfl (by decide) rfl]
    exact ⟨rfl, rfl⟩

/-- C6 (amended). The gate answers each failed check with a response of its own. A missing
cookie and a token that `ValidateJWT` rejects get the same one, 401 `error: not authorized`;
a principal the store does not return gets 404 `error: user not found`; a level too high
for the path segment the gate reads gets 401 `not authorized`. Whenever the gate returns
without the wrapped handler, the response is one of these three, a single `http.Error`; and
a request answered with the first differs in what the caller reads from a request answered
with the second or the third. -/
theorem denial_responses (env : Env) (r : Request) :
    ((∃ e, r.Cookie "token" = .error e) → Denies env r "error: not authorized" 401) ∧
      ((∃ ts tok err, r.Cookie "token" = .ok ts ∧ ValidateJWT env ts = (tok, some err)) →
        Denies env r "error: not authorized" 401) ∧
      (∀ ts token claims userId err,
        r.Cookie "token" = .ok ts → ValidateJWT env ts = (some token, none) →
          token.Claims = .MapClaims claims →
          claims.get "userId" = some (.float64 userId) →
          env.store.GetUserById (goInt env.intOutOfRange userId) = .error err →
          Denies env r "error: user not found" 404) ∧
      (∀ ts token claims userId user endpoint,
        r.Cookie "token" = .ok ts → ValidateJWT env ts = (some token, none) →
          token.Claims = .MapClaims claims →
          claims.get "userId" = some (.float64 userId) →
          env.store.GetUserById (goInt env.intOutOfRange userId) = .ok user →
          (stringsSplit r.Path '/').get? 1 = some endpoint →
          ((endpoint = "products" ∧ user.Level > 1) ∨ (endpoint = "users" ∧ user.Level > 0)) →
          Denies env r "not authorized" 401) ∧
      (Denied env r →
        Denies env r "error: not authorized" 401 ∨ Denies env r "error: user not found" 404 ∨
          Denies env r "not authorized" 401) ∧
      ∀ r2 : Request, Denies env r "error: not authorized" 401 →
        (Denies env r2 "error: user not found" 404 ∨ Denies env r2 "not authorized" 401) →
        ∀ next, (protectMiddleware env next r).response ≠ (protectMiddleware env next r2).response := by
  have hshape : ∀ (pre : List Event) (msg body : String) (code : Nat),
      (∀ e ∈ pre, e.isResponse = false) →
      (∀ next, protectMiddleware env next r =
        .ret (pre ++ [.log msg, .httpError body code])) →
      Denies env r body code := by
    intro pre msg body code hpre hrun next
    rw [hrun next]
    refine ⟨rfl, ?_⟩
    have hfil : pre.filter Event.isResponse = [] := by
      rw [List.filter_eq_nil_iff]
      intro e he
      simp [hpre e he]
    simp [Exec.response, Exec.ret, List.filter_append, hfil, Event.isResponse]
  refine ⟨?_, ?_, ?_, ?_, ?_, ?_⟩
  · rintro ⟨e, hc⟩
    exact hshape [] e _ _ (by simp) (fun next => gate_no_cookie env next r e hc)
  · rintro ⟨ts, tok, err, hc, hv⟩
    exact hshape [] err _ _ (by simp) (fun next => gate_token_error env next r ts tok err hc hv)
  · intro ts token claims userId err hc hv hcl hu hs
    exact hshape [.store (.GetUserById (goInt env.intOutOfRange userId))] err _ _
      (by simp [Event.isResponse])
      (fun next => gate_user_not_found env next r ts token claims userId err hc hv hcl hu hs)
  · intro ts token claims userId user endpoint hc hv hcl hu hs hp hd
    refine hshape [.store (.GetUserById (goInt env.intOutOfRange userId))]
      (levelDenied user endpoint) _ _ (by simp [Event.isResponse]) (fun next => ?_)
    rw [gate_user_found env next r ts token claims userId user hc hv hcl hu hs, hp]
    simp only [hd, if_true]
    rfl
  · rintro ⟨x, hout, hx⟩
    rcases gate_cases env r with hg | hg | hg | hg | hg | hg
    · obtain ⟨e, hg⟩ := hg
      exact Or.inl (hshape [] e _ _ (by simp) hg)
    · rw [← hx (fun _ => .ret []), hg] at hout
      simp [Exec.panic] at hout
    · obtain ⟨id, e, hg⟩ := hg
      exact Or.inr (Or.inl (hshape [.store (.GetUserById id)] e _ _
        (by simp [Event.isResponse]) hg))
    · obtain ⟨id, hg⟩ := hg
      rw [← hx (fun _ => .ret []), hg] at hout
      simp [Exec.panic] at hout
    · obtain ⟨id, msg, hg⟩ := hg
      exact Or.inr (Or.inr (hshape [.store (.GetUserById id)] msg _ _
        (by simp [Event.isResponse]) hg))
    · obtain ⟨ts, token, claims, userId, user, _, _, _, _, _, _, hg⟩ := hg
      have h1 := hx (fun _ => .ret [])
      have h2 := hx (fun _ => .ret [.log "reached"])
      rw [hg] at h1 h2
      rw [← h2] at h1
      simp [Exec.after, Exec.ret] at h1
  · intro r2 hd1 hd2 next hEq
    rw [(hd1 next).2] at hEq
    rcases hd2 with hd2 | hd2
    · rw [(hd2 next).2] at hEq
      simp at hEq
    · rw [(hd2 next).2] at hEq
      simp at hEq

/-- C6 (amended), at the request with a valid token of a principal the store does not
hold: it is answered 404 `error: user not found`. -/
theorem denial_responses_witness :
    Denies world
      (request "GET" "/api/users" [("token", signedWith "k" [("userId", .int 5)])] "")
      "error: user not found" 404 :=
  (denial_responses world
    (request "GET" "/api/users" [("token", signedWith "k" [("userId", .int 5)])] "")).2.2.1
    (signedWith "k" [("userId", .int 5)])
    ⟨some (.HMAC "HS256"), [("alg", .string "HS256"), ("typ", .string "JWT")],
      .MapClaims [("userId", .float64 ⟨5, 0⟩)], true⟩
    [("userId", .float64 ⟨5, 0⟩)] ⟨5, 0⟩ "sql: no rows in result set"
    rfl (by decide) rfl (by decide) rfl

/-- C7 (as stated, refuted). With `JWT_SECRET` unset, `CreateJWT 7` returns no error but the
token signed with the empty key, and `ValidateJWT` accepts that token. -/
theorem unset_secret_signs_with_empty_key :
    (sampleEnv none).environ "JWT_SECRET" = none ∧
      CreateJWT (sampleEnv none) 7 = .ok (signedWith "" [("userId", .int 7)]) ∧
      ValidateJWT (sampleEnv none) (signedWith "" [("userId", .int 7)]) =
        (some ⟨some (.HMAC "HS256"), [("alg", .string "HS256"), ("typ", .string "JWT")],
          .MapClaims [("userId", .float64 ⟨7, 0⟩)], true⟩, none) :=
  ⟨rfl, rfl, by decide⟩

/-- C7 (amended). When `JWT_SECRET` is absent `os.Getenv` yields the empty string and the
program signs and verifies with the empty key; no configuration error is raised. For every
id `CreateJWT` returns, without error, the HS256 token over `userId` signed with the empty
key (the hash being available). The key function of `ValidateJWT` returns the empty key, and
no error, for every token of the HMAC family, and never another key. `ValidateJWT` accepts a
token only if its signature is the HMAC of its signing input under the empty key, and it
does accept every such token that parses to an HMAC method with valid claims: in
particular the token `CreateJWT` issued for a Go `int`. -/
theorem unset_secret_is_empty_key (env : Env) (id : Int)
    (h : env.environ "JWT_SECRET" = none) (ha : env.hashAvailable = true) :
    CreateJWT env id =
        .ok (.compact ⟨hs256Header, [("userId", .int id)]⟩
          (some (env.hmac "HS256" "" ⟨hs256Header, [("userId", .int id)]⟩))) ∧
      (∀ token alg, token.Method = some (.HMAC alg) →
        keyFunc (osGetenv env "JWT_SECRET") token = .ok "") ∧
      (∀ token key, keyFunc (osGetenv env "JWT_SECRET") token = .ok key → key = "") ∧
      (∀ ts tok, ValidateJWT env ts = (tok, none) →
        ∃ input alg, ts = .compact input (some (env.hmac alg "" input))) ∧
      (∀ input alg header claims,
        ParseUnverified (.compact input (some (env.hmac alg "" input))) =
            (some ⟨some (.HMAC alg), header, .MapClaims claims, false⟩, none) →
          claims.Valid env = none →
          ValidateJWT env (.compact input (some (env.hmac alg "" input))) =
            (some ⟨some (.HMAC alg), header, .MapClaims claims, true⟩, none)) ∧
      (id.natAbs ≤ 2 ^ 63 →
        ValidateJWT env (.compact ⟨hs256Header, [("userId", .int id)]⟩
            (some (env.hmac "HS256" "" ⟨hs256Header, [("userId", .int id)]⟩))) =
          (some ⟨some (.HMAC "HS256"), [("alg", .string "HS256"), ("typ", .string "JWT")],
            .MapClaims [("userId", .float64 (float64OfInt id))], true⟩, none)) := by
  have hs : osGetenv env "JWT_SECRET" = "" := by simp [osGetenv, h]
  have hacc : ∀ input alg header claims,
      ParseUnverified (.compact input (some (env.hmac alg "" input))) =
          (some ⟨some (.HMAC alg), header, .MapClaims claims, false⟩, none) →
        claims.Valid env = none →
        ValidateJWT env (.compact input (some (env.hmac alg "" input))) =
          (some ⟨some (.HMAC alg), header, .MapClaims claims, true⟩, none) := by
    intro input alg header claims hp hv
    have hacc0 := ValidateJWT_accepts env ha input alg header claims
    rw [hs] at hacc0
    exact hacc0 hp hv
  refine ⟨?_, ?_, ?_, ?_, hacc, ?_⟩
  · simp [CreateJWT, hs, NewWithClaims, Token.SignedString, SigningMethod.Sign, ha,
      marshalObject, GoValue.marshal, hs256Header]
  · intro token alg hm
    rw [hs]
    exact (keyFunc_ok_iff _ _ _).2 ⟨⟨alg, hm⟩, rfl⟩
  · intro token key hk
    rw [hs] at hk
    exact ((keyFunc_ok_iff _ _ _).1 hk).2
  · intro ts tok hv
    obtain ⟨input, sig, alg, header, claims, rfl, _, _, hver⟩ := ValidateJWT_ok hv
    rw [hs] at hver
    refine ⟨input, alg, ?_⟩
    cases sig with
    | none => simp [SigningMethod.Verify] at hver
    | some sg =>
      by_cases heq : sg = env.hmac alg "" input
      · rw [heq]
      · simp [SigningMethod.Verify, ha, heq] at hver
  · intro hid
    exact hacc _ _ _ _ (ParseUnverified_issued id hid _) (by simp [MapClaims.Valid, MapClaims.get])

/-- C7 (amended), in the sample world without `JWT_SECRET`: the token issued for id 7 under
the empty key is accepted. -/
theorem unset_secret_is_empty_key_witness :
    ValidateJWT (sampleEnv none) (.compact ⟨hs256Header, [("userId", .int 7)]⟩
        (some ((sampleEnv none).hmac "HS256" "" ⟨hs256Header, [("userId", .int 7)]⟩))) =
      (some ⟨some (.HMAC "HS256"), [("alg", .string "HS256"), ("typ", .string "JWT")],
        .MapClaims [("userId", .float64 (float64OfInt 7))], true⟩, none) :=
  (unset_secret_is_empty_key (sampleEnv none) 7 rfl rfl).2.2.2.2.2 (by decide)

/-- C8. For a parsed token whose signing method is not of the HMAC family, whatever its
claims, the key function returns an error and no key, `ValidateJWT` returns that error, and
the gate answers 401 `error: not authorized` without a call on the store; the key function
returns a key, the signing secret, only for an HMAC method. -/
theorem non_hmac_rejected (env : Env) (next : Request → Exec) (r : Request)
    (ts : TokenString) (token : Token)
    (hp : ParseUnverified ts = (some token, none))
    (hm : ∀ alg, token.Method ≠ some (.HMAC alg))
    (hc : r.Cookie "token" = .ok ts) :
    (∃ e, keyFunc (osGetenv env "JWT_SECRET") token = .error e ∧
        ValidateJWT env ts = (some token, some e) ∧
        protectMiddleware env next r =
          .ret [.log e, .httpError "error: not authorized" 401]) ∧
      (protectMiddleware env next r).status = some 401 ∧
      (protectMiddleware env next r).storeCalls = [] ∧
      ∀ secret t key, keyFunc secret t = .ok key →
        (∃ alg, t.Method = some (.HMAC alg)) ∧ key = secret := by
  have hk : ∃ e, keyFunc (osGetenv env "JWT_SECRET") token = .error e := by
    cases hkf : keyFunc (osGetenv env "JWT_SECRET") token with
    | error e => exact ⟨e, rfl⟩
    | ok key =>
      obtain ⟨⟨alg, ha⟩, _⟩ := (keyFunc_ok_iff _ _ _).1 hkf
      exact absurd ha (hm alg)
  obtain ⟨e, hk⟩ := hk
  have hv : ValidateJWT env ts = (some token, some e) := by
    simp [ValidateJWT, Parse, hp, hk]
  have hrun := gate_token_error env next r ts (some token) e hc hv
  refine ⟨⟨e, hk, hv, hrun⟩, ?_, ?_, fun secret t key hkey => (keyFunc_ok_iff _ _ _).1 hkey⟩
  · rw [hrun]; rfl
  · rw [hrun]; rfl

/-- C8, at a token that claims the algorithm `none` and the identity of `root`. -/
theorem non_hmac_rejected_witness :
    (protectMiddleware world (handleUsers world)
        (request "GET" "/api/users"
          [("token", .compact ⟨[("alg", .string "none")], [("userId", .int 1)]⟩ (some ""))]
          "")).status = some 401 ∧
      (protectMiddleware world (handleUsers world)
        (request "GET" "/api/users"
          [("token", .compact ⟨[("alg", .string "none")], [("userId", .int 1)]⟩ (some ""))]
          "")).storeCalls = [] :=
  have h := non_hmac_rejected world (handleUsers world)
    (request "GET" "/api/users"
      [("token", .compact ⟨[("alg", .string "none")], [("userId", .int 1)]⟩ (some ""))] "")
    (.compact ⟨[("alg", .string "none")], [("userId", .int 1)]⟩ (some ""))
    ⟨some .none, [("alg", .string "none")], .MapClaims [("userId", .float64 ⟨1, 0⟩)], false⟩
    (by decide) (fun alg h => by simp at h) rfl
  ⟨h.2.1, h.2.2.1⟩

/-- C9 (as stated, refuted). The Go `int` `2 ^ 53 + 1` does not survive the round trip: the
token `CreateJWT` issues for it is accepted by `ValidateJWT`, but its `userId` claim decodes
to the double `2 ^ 53`, and that is the identifier the gate extracts. -/
theorem round_trip_loses_large_id :
    (-(2 ^ 63) ≤ (2 ^ 53 + 1 : Int) ∧ (2 ^ 53 + 1 : Int) < 2 ^ 63) ∧
      CreateJWT world (2 ^ 53 + 1) = .ok (signedWith "k" [("userId", .int (2 ^ 53 + 1))]) ∧
      ValidateJWT world (signedWith "k" [("userId", .int (2 ^ 53 + 1))]) =
        (some ⟨some (.HMAC "HS256"), [("alg", .string "HS256"), ("typ", .string "JWT")],
          .MapClaims [("userId", .float64 ⟨2 ^ 52, 1⟩)], true⟩, none) ∧
      goInt world.intOutOfRange ⟨2 ^ 52, 1⟩ = 2 ^ 53 ∧
      goInt world.intOutOfRange ⟨2 ^ 52, 1⟩ ≠ 2 ^ 53 + 1 :=
  ⟨by decide, rfl, by decide, by decide, by decide⟩

/-- C9 (amended). For every user id of magnitude at most `2 ^ 53` and any signing secret
(the hash being available), `CreateJWT` returns a token, `ValidateJWT` accepts it without
error and marks it valid, its `userId` claim is a `float64`, and `int(...)` of that claim
is the id. -/
theorem round_trip (env : Env) (id : Int) (ha : env.hashAvailable = true)
    (hid : id.natAbs ≤ 2 ^ 53) :
    ∃ ts token claims userId,
      CreateJWT env id = .ok ts ∧ ValidateJWT env ts = (some token, none) ∧
        token.Valid = true ∧ token.Claims = .MapClaims claims ∧
        claims.get "userId" = some (.float64 userId) ∧
        goInt env.intOutOfRange userId = id := by
  obtain ⟨hun, hint⟩ := unmarshal_int_exact env.intOutOfRange id hid
  refine ⟨.compact ⟨hs256Header, [("userId", .int id)]⟩
      (some (env.hmac "HS256" (osGetenv env "JWT_SECRET") ⟨hs256Header, [("userId", .int id)]⟩)),
    ⟨some (.HMAC "HS256"), [("alg", .string "HS256"), ("typ", .string "JWT")],
      .MapClaims [("userId", .float64 ⟨id, 0⟩)], true⟩,
    [("userId", .float64 ⟨id, 0⟩)], ⟨id, 0⟩, ?_, ?_, rfl, rfl, ?_, hint⟩
  · simp [CreateJWT, NewWithClaims, Token.SignedString, SigningMethod.Sign, ha,
      marshalObject, GoValue.marshal, hs256Header]
  · have hclaims : unmarshalObject [("userId", JsonLit.int id)] =
        .ok [("userId", .float64 ⟨id, 0⟩)] := by
      simp [unmarshalObject, hun]
    have hheader : unmarshalObject hs256Header =
        .ok [("alg", .string "HS256"), ("typ", .string "JWT")] := by
      simp [unmarshalObject, hs256Header, JsonLit.unmarshal]
    have hparse : ParseUnverified (.compact ⟨hs256Header, [("userId", .int id)]⟩
        (some (env.hmac "HS256" (osGetenv env "JWT_SECRET")
          ⟨hs256Header, [("userId", .int id)]⟩))) =
        (some ⟨some (.HMAC "HS256"), [("alg", .string "HS256"), ("typ", .string "JWT")],
          .MapClaims [("userId", .float64 ⟨id, 0⟩)], false⟩, none) := by
      simp [ParseUnverified, hclaims, hheader, headerAlg, MapClaims.get, GetSigningMethod]
    simp [ValidateJWT, Parse, hparse, keyFunc, SigningMethod.Verify, ha, MapClaims.Valid,
      MapClaims.get]
  · simp [MapClaims.get]

/-- C9 (amended), at id 7 in the sample world. -/
theorem round_trip_witness :
    ∃ ts token claims userId,
      CreateJWT world 7 = .ok ts ∧ ValidateJWT world ts = (some token, none) ∧
        token.Valid = true ∧ token.Claims = .MapClaims claims ∧
        claims.get "userId" = some (.float64 userId) ∧
        goInt world.intOutOfRange userId = 7 :=
  round_trip world 7 rfl (by decide)

/-- The run of a successful login: store lookup, cookie, then `WriteJSON` with status 200. -/
theorem handleLogin_success (env : Env) (r : Request) (loginReq : LoginRequest) (user : User)
    (token : TokenString)
    (hd : env.decodeLoginRequest r.Body = .ok loginReq)
    (hs : env.store.GetUserByUsername loginReq.Username = .ok user)
    (hp : user.VerifyPassword env loginReq.Password = true)
    (hj : CreateJWT env user.Id = .ok token) :
    handleLogin env r =
      .ret ([.store (.GetUserByUsername loginReq.Username),
        .setCookie (CreateCookie "token" token)] ++
          WriteJSON env (.string "login successful") 200) := by
  simp [handleLogin, hd, hs, hp, hj]

/-- The cookies and the status of a run that sets one cookie and then calls `WriteJSON`. -/
theorem cookie_then_WriteJSON (env : Env) (call : StoreCall) (c : Cookie) (v : JsonOut)
    (status : Nat) :
    (Exec.ret ([.store call, .setCookie c] ++ WriteJSON env v status)).cookies = [c] ∧
      (Exec.ret ([.store call, .setCookie c] ++ WriteJSON env v status)).status =
        some status := by
  cases he : env.encodeError v <;>
    simp [Exec.ret, Exec.cookies, Exec.status, WriteJSON, he, List.findSome?]

/-- C10. `handleLogin` sets a cookie if and only if the body decoded, the store found the
user, `VerifyPassword` was true (which is: the bcrypt comparison returned no error at all)
and `CreateJWT` succeeded for the stored user's id; then the status is 200 and the one
cookie set is `CreateCookie "token"` of exactly that token. Otherwise the response is a
single `http.Error` and no cookie: 500 for a body that does not decode, 404 for an unknown
user, 400 for a wrong password, 500 for a signing failure. -/
theorem login_sets_cookie_iff (env : Env) (r : Request) :
    ((handleLogin env r).cookies ≠ [] ↔
        ∃ loginReq user token,
          env.decodeLoginRequest r.Body = .ok loginReq ∧
            env.store.GetUserByUsername loginReq.Username = .ok user ∧
            user.VerifyPassword env loginReq.Password = true ∧
            CreateJWT env user.Id = .ok token) ∧
      (∀ (user : User) (pass : String),
        user.VerifyPassword env pass = true ↔
          env.bcryptCompare user.PasswordHashed pass = none) ∧
      (∀ loginReq user token,
        env.decodeLoginRequest r.Body = .ok loginReq →
          env.store.GetUserByUsername loginReq.Username = .ok user →
          user.VerifyPassword env loginReq.Password = true →
          CreateJWT env user.Id = .ok token →
          (handleLogin env r).cookies = [CreateCookie "token" token] ∧
            (CreateCookie "token" token).Name = "token" ∧
            (CreateCookie "token" token).Value = token ∧
            (handleLogin env r).status = some 200 ∧
            (handleLogin env r).outcome = .returned) ∧
      (∀ err, env.decodeLoginRequest r.Body = .error err →
        (handleLogin env r).response = [.httpError "internal server error" 500]) ∧
      (∀ loginReq err,
        env.decodeLoginRequest r.Body = .ok loginReq →
          env.store.GetUserByUsername loginReq.Username = .error err →
          (handleLogin env r).response = [.httpError "user not found" 404]) ∧
      (∀ loginReq user,
        env.decodeLoginRequest r.Body = .ok loginReq →
          env.store.GetUserByUsername loginReq.Username = .ok user →
          user.VerifyPassword env loginReq.Password = false →
          (handleLogin env r).response = [.httpError "wrong password" 400]) ∧
      ∀ loginReq user err,
        env.decodeLoginRequest r.Body = .ok loginReq →
          env.store.GetUserByUsername loginReq.Username = .ok user →
          user.VerifyPassword env loginReq.Password = true →
          CreateJWT env user.Id = .error err →
          (handleLogin env r).response = [.httpError "internal server error" 500] := by
  have hfail500 : ∀ err, env.decodeLoginRequest r.Body = .error err →
      (handleLogin env r).response = [.httpError "internal server error" 500] := by
    intro err hd
    simp [handleLogin, hd, internalServerError, Exec.ret, Exec.response, Event.isResponse]
  have hfail404 : ∀ loginReq err, env.decodeLoginRequest r.Body = .ok loginReq →
      env.store.GetUserByUsername loginReq.Username = .error err →
      (handleLogin env r).response = [.httpError "user not found" 404] := by
    intro loginReq err hd hs
    simp [handleLogin, hd, hs, Exec.ret, Exec.response, Event.isResponse]
  have hfail400 : ∀ loginReq user, env.decodeLoginRequest r.Body = .ok loginReq →
      env.store.GetUserByUsername loginReq.Username = .ok user →
      user.VerifyPassword env loginReq.Password = false →
      (handleLogin env r).response = [.httpError "wrong password" 400] := by
    intro loginReq user hd hs hp
    simp [handleLogin, hd, hs, hp, Exec.ret, Exec.response, Event.isResponse]
  have hfailsign : ∀ loginReq user err, env.decodeLoginRequest r.Body = .ok loginReq →
      env.store.GetUserByUsername loginReq.Username = .ok user →
      user.VerifyPassword env loginReq.Password = true →
      CreateJWT env user.Id = .error err →
      (handleLogin env r).response = [.httpError "internal server error" 500] := by
    intro loginReq user err hd hs hp hj
    simp [handleLogin, hd, hs, hp, hj, internalServerError, Exec.ret, Exec.response,
      Event.isResponse]
  have hok : ∀ loginReq user token, env.decodeLoginRequest r.Body = .ok loginReq →
      env.store.GetUserByUsername loginReq.Username = .ok user →
      user.VerifyPassword env loginReq.Password = true →
      CreateJWT env user.Id = .ok token →
      (handleLogin env r).cookies = [CreateCookie "token" token] ∧
        (handleLogin env r).status = some 200 := by
    intro loginReq user token hd hs hp hj
    rw [handleLogin_success env r loginReq user token hd hs hp hj]
    exact cookie_then_WriteJSON env _ _ _ 200
  have hnocookie : ∀ body code, (handleLogin env r).response = [.httpError body code] →
      (handleLogin env r).cookies = [] := by
    intro body code hresp
    unfold Exec.response at hresp
    unfold Exec.cookies
    rw [List.filterMap_eq_nil_iff]
    intro e he
    cases e with
    | setCookie c =>
      have hmem : Event.setCookie c ∈ (handleLogin env r).events.filter Event.isResponse :=
        List.mem_filter.2 ⟨he, rfl⟩
      rw [hresp] at hmem
      simp at hmem
    | _ => rfl
  refine ⟨?_, ?_, ?_, hfail500, hfail404, hfail400, hfailsign⟩
  · constructor
    · intro hne
      cases hd : env.decodeLoginRequest r.Body with
      | error err => exact absurd (hnocookie _ _ (hfail500 err hd)) hne
      | ok loginReq =>
        cases hs : env.store.GetUserByUsername loginReq.Username with
        | error err => exact absurd (hnocookie _ _ (hfail404 loginReq err hd hs)) hne
        | ok user =>
          cases hp : user.VerifyPassword env loginReq.Password with
          | false => exact absurd (hnocookie _ _ (hfail400 loginReq user hd hs hp)) hne
          | true =>
            cases hj : CreateJWT env user.Id with
            | error err =>
              exact absurd (hnocookie _ _ (hfailsign loginReq user err hd hs hp hj)) hne
            | ok token => exact ⟨loginReq, user, token, rfl, hs, hp, hj⟩
    · rintro ⟨loginReq, user, token, hd, hs, hp, hj⟩
      rw [(hok loginReq user token hd hs hp hj).1]
      simp
  · intro user pass
    simp [User.VerifyPassword]
  · intro loginReq user token hd hs hp hj
    refine ⟨(hok loginReq user token hd hs hp hj).1, rfl, rfl,
      (hok loginReq user token hd hs hp hj).2, ?_⟩
    rw [handleLogin_success env r loginReq user token hd hs hp hj]
    rfl

/-- C10, at the login of `alice` with her password in the sample world. -/
theorem login_sets_cookie_iff_witness :
    (handleLogin world (request "POST" "/api/login" [] "alice-login")).cookies =
        [CreateCookie "token" (signedWith "k" [("userId", .int 7)])] ∧
      (handleLogin world (request "POST" "/api/login" [] "alice-login")).status = some 200 :=
  have h := (login_sets_cookie_iff world (request "POST" "/api/login" [] "alice-login")).2.2.1
    ⟨"alice", "secret"⟩ alice (signedWith "k" [("userId", .int 7)]) rfl rfl (by decide) rfl
  ⟨h.1, h.2.2.2.1⟩

/-! ## The statements of the store -/

/-- The highest placeholder of each query text of `PostgresStore`. -/
theorem highestPlaceholder_queries :
    highestPlaceholder createUserTableQuery = 0 ∧
      highestPlaceholder createProductTableQuery = 0 ∧
      highestPlaceholder createUserQuery = 3 ∧
      highestPlaceholder getAllUsersQuery = 0 ∧
      highestPlaceholder getUserByIdQuery = 1 ∧
      highestPlaceholder getUserByUsernameQuery = 1 ∧
      highestPlaceholder updateUserQuery = 4 ∧
      highestPlaceholder deleteUserByIdQuery = 1 ∧
      highestPlaceholder createProductQuery = 11 ∧
      highestPlaceholder getAllProductsQuery = 0 ∧
      highestPlaceholder getProductsByTypeQuery = 1 ∧
      highestPlaceholder getProductByIdQuery = 1 ∧
      highestPlaceholder getProductByTitleQuery = 1 ∧
      highestPlaceholder updateProductQuery = 12 ∧
      highestPlaceholder deleteProductByIdQuery = 1 := by
  set_option maxRecDepth 100000 in decide

/-- The row-identifying placeholder of the update and delete queries. -/
theorem rowPlaceholder_queries :
    rowPlaceholder updateUserQuery = some 4 ∧
      rowPlaceholder deleteUserByIdQuery = some 1 ∧
      rowPlaceholder updateProductQuery = some 12 ∧
      rowPlaceholder deleteProductByIdQuery = some 1 := by
  set_option maxRecDepth 100000 in decide

/-- C11 (code defect). Two operations of `PostgresStore` leave the row-identifying
placeholder without a value. `UpdateProduct` executes a statement whose highest placeholder
is `$12`, in `where id=$12`, with the eleven column values only: nothing is bound to `$12`,
the product's `Id` is not passed. `DeleteProductById` executes `where id=$1` with no argument
at all: `id` is not passed. The sibling operations do bind: `UpdateUser` passes four
arguments for `$1`..`$4` with the user's `Id` for `where id=$4`, `DeleteUserById` passes `id`
for `$1`, and every other operation passes exactly as many arguments as its highest
placeholder. -/
theorem product_update_delete_unbound :
    (∀ p : Product,
        highestPlaceholder (PostgresStore.UpdateProduct p).query = 12 ∧
          (PostgresStore.UpdateProduct p).args.length = 11 ∧
          rowPlaceholder (PostgresStore.UpdateProduct p).query = some 12 ∧
          (PostgresStore.UpdateProduct p).bound 12 = none ∧
          ¬ (PostgresStore.UpdateProduct p).bindsAll) ∧
      (∀ id : Int,
        highestPlaceholder (PostgresStore.DeleteProductById id).query = 1 ∧
          (PostgresStore.DeleteProductById id).args = [] ∧
          rowPlaceholder (PostgresStore.DeleteProductById id).query = some 1 ∧
          (PostgresStore.DeleteProductById id).bound 1 = none ∧
          ¬ (PostgresStore.DeleteProductById id).bindsAll) ∧
      (∀ u : User,
        (PostgresStore.UpdateUser u).bindsAll ∧
          rowPlaceholder (PostgresStore.UpdateUser u).query = some 4 ∧
          (PostgresStore.UpdateUser u).bound 4 = some (.int u.Id)) ∧
      (∀ id : Int,
        (PostgresStore.DeleteUserById id).bindsAll ∧
          rowPlaceholder (PostgresStore.DeleteUserById id).query = some 1 ∧
          (PostgresStore.DeleteUserById id).bound 1 = some (.int id)) ∧
      PostgresStore.createUserTable.bindsAll ∧
      PostgresStore.createProductTable.bindsAll ∧
      (∀ u : User, (PostgresStore.CreateUser u).bindsAll) ∧
      PostgresStore.GetAllUsers.bindsAll ∧
      (∀ id : Int, (PostgresStore.GetUserById id).bindsAll) ∧
      (∀ name : String, (PostgresStore.GetUserByUsername name).bindsAll) ∧
      (∀ p : Product, (PostgresStore.CreateProduct p).bindsAll) ∧
      PostgresStore.GetAllProducts.bindsAll ∧
      (∀ t : String, (PostgresStore.GetProductsByType t).bindsAll) ∧
      (∀ id : Int, (PostgresStore.GetProductById id).bindsAll) ∧
      ∀ title : String, (PostgresStore.GetProductByTitle title).bindsAll := by
  obtain ⟨h1, h2, h3, h4, h5, h6, h7, h8, h9, h10, h11, h12, h13, h14, h15⟩ :=
    highestPlaceholder_queries
  obtain ⟨r1, r2, r3, r4⟩ := rowPlaceholder_queries
  refine ⟨fun p => ⟨h14, rfl, r3, rfl, ?_⟩, fun id => ⟨h15, rfl, r4, rfl, ?_⟩,
    fun u => ⟨?_, r1, rfl⟩, fun id => ⟨?_, r2, rfl⟩, ?_, ?_, fun u => ?_, ?_, fun id => ?_,
    fun name => ?_, fun p => ?_, ?_, fun t => ?_, fun id => ?_, fun title => ?_⟩
  · intro hb
    have hlen : (PostgresStore.UpdateProduct p).args.length = 11 := rfl
    unfold Statement.bindsAll at hb
    rw [hlen] at hb
    have hq : highestPlaceholder (PostgresStore.UpdateProduct p).query = 12 := h14
    omega
  · intro hb
    have hlen : (PostgresStore.DeleteProductById id).args.length = 0 := rfl
    unfold Statement.bindsAll at hb
    rw [hlen] at hb
    have hq : highestPlaceholder (PostgresStore.DeleteProductById id).query = 1 := h15
    omega
  · exact h7.symm
  · exact h8.symm
  · exact h1.symm
  · exact h2.symm
  · exact h3.symm
  · exact h4.symm
  · exact h5.symm
  · exact h6.symm
  · exact h9.symm
  · exact h10.symm
  · exact h11.symm
  · exact h12.symm
  · exact h13.symm

end NeongThreads
